import Mathlib

/-!
# Storage provisionings marshaller (`marshal/oracle/storage_provisionings.go`)

A shallow embedding of `StorageProvisionings`, `parseValues` and `parseTimeSeries`.

Boundary of the embedding.
* The input is the sequence of lines that `scanner.Scan()` / `scanner.Text()` deliver
  (the `bufio.Scanner` itself is Go's standard library and is not modelled).
* `time.Time` is modelled by its civil fields in a zone with a fixed offset; `Date`,
  `AddDate` and `time.Parse` for the layout `020115:04` follow the documented behaviour of
  Go's standard library.
* The numeric primitive `marshal.TrimParseUnsafeFloat64(·, marshal.TrimParseFloat64)`,
  `ercutils.NewError`, the captured `currentTime` and the year read by `time.Now().Year()`
  are parameters (`Deps`); the float type is the type parameter `F`.
* A Go `error` that is a `*multierror.Error` is the list of the errors it holds; `none` is
  the `nil` error.  A run-time panic (index out of range) is `none` in the outer `Option`.
-/

namespace StorageProv

/-! ## Strings -/

/-- Go's `unicode.IsSpace`. -/
def isSpace (c : Char) : Bool :=
  let n := c.toNat
  n = 9 || n = 10 || n = 11 || n = 12 || n = 13 || n = 32 || n = 0x85 || n = 0xA0 ||
  n = 0x1680 || (0x2000 ≤ n && n ≤ 0x200A) || n = 0x2028 || n = 0x2029 || n = 0x202F ||
  n = 0x205F || n = 0x3000

/-- Go's `strings.TrimSpace`: leading and trailing white space removed. -/
def TrimSpace (s : String) : String :=
  String.mk ((s.data.dropWhile isSpace).reverse.dropWhile isSpace).reverse

/-- The scan of `strings.Split(line, "|||")`: `acc` holds the current field reversed; the
leftmost occurrence of the separator ends the field and scanning resumes after it. -/
def splitBars : List Char → List Char → List (List Char)
  | acc, [] => [acc.reverse]
  | acc, [a] => [(a :: acc).reverse]
  | acc, [a, b] => [(b :: a :: acc).reverse]
  | acc, a :: b :: c :: rest =>
    if a = '|' ∧ b = '|' ∧ c = '|' then acc.reverse :: splitBars [] rest
    else splitBars (a :: acc) (b :: c :: rest)

/-- Go's `strings.Split(line, "|||")`. -/
def Split (line : String) : List String :=
  (splitBars [] line.data).map String.mk

/-- Modelled from the spec: `ercutils.Contains` (package `ercole/v2/utils`, not in this
repository's sources): whether some element of the slice equals the given string. -/
def Contains (a : List String) (x : String) : Bool :=
  a.any (fun n => decide (x = n))

/-! ## Time -/

/-- A `time.Time`, by its civil fields (year, month 1..12, day of month, clock). -/
structure Time where
  year : Int
  month : Nat
  day : Nat
  hour : Nat
  minute : Nat
  second : Nat
  nsec : Nat
deriving DecidableEq, Repr

/-- Go's `isLeap`. -/
def isLeap (year : Int) : Bool :=
  year % 4 = 0 && (year % 100 ≠ 0 || year % 400 = 0)

/-- Go's `daysIn(month, year)`. -/
def daysIn (m : Nat) (year : Int) : Nat :=
  if m = 2 then (if isLeap year then 29 else 28)
  else if m = 4 ∨ m = 6 ∨ m = 9 ∨ m = 11 then 30
  else 31

/-- Go's `norm(hi, lo, base)`: `lo` brought into `[0, base)`, the carry moved into `hi`. -/
def norm (hi lo base : Int) : Int × Int :=
  let p : Int × Int :=
    if lo < 0 then
      let n := (-lo - 1) / base + 1
      (hi - n, lo + n * base)
    else (hi, lo)
  if p.2 ≥ base then
    let n := p.2 / base
    (p.1 + n, p.2 - n * base)
  else p

/-- Day-of-month overflow of `time.Date`: a day before the 1st moves into the previous
months, a day after the end of the month into the next ones ("October 32 converts to
November 1").  `fuel` bounds the number of months crossed. -/
def normDay : Nat → Int → Nat → Int → Int × Nat × Int
  | 0, y, m, d => (y, m, d)
  | fuel + 1, y, m, d =>
    if d < 1 then
      let y1 : Int := if m = 1 then y - 1 else y
      let m1 : Nat := if m = 1 then 12 else m - 1
      normDay fuel y1 m1 (d + daysIn m1 y1)
    else if d > daysIn m y then
      let y1 : Int := if m = 12 then y + 1 else y
      let m1 : Nat := if m = 12 then 1 else m + 1
      normDay fuel y1 m1 (d - daysIn m y)
    else (y, m, d)

/-- Go's `time.Date(year, month, day, hour, min, sec, nsec, loc)`: out-of-range values are
normalised.  Every month crossed changes the day by at least 28, so `|day| + 1` steps of
`normDay` are enough. -/
def Date (year month day hour min sec nsec : Int) : Time :=
  let ym := norm year (month - 1) 12
  let sn := norm sec nsec 1000000000
  let ms := norm min sn.1 60
  let hm := norm hour ms.1 60
  let dh := norm day hm.1 24
  let r := normDay (dh.1.natAbs + 1) ym.1 (ym.2.toNat + 1) dh.1
  { year := r.1, month := r.2.1, day := r.2.2.toNat, hour := dh.2.toNat,
    minute := hm.2.toNat, second := ms.2.toNat, nsec := sn.2.toNat }

/-- Go's `Time.AddDate(years, months, days)`. -/
def Time.AddDate (t : Time) (years months days : Int) : Time :=
  Date (t.year + years) (t.month + months) (t.day + days) t.hour t.minute t.second t.nsec

/-- The zero `time.Time{}`: January 1, year 1, 00:00:00 UTC. -/
def Time.zero : Time :=
  { year := 1, month := 1, day := 1, hour := 0, minute := 0, second := 0, nsec := 0 }

/-- Go's `isDigit` on the first byte. -/
def isDigit (c : Char) : Bool := 48 ≤ c.toNat && c.toNat ≤ 57

/-- Value of a decimal digit. -/
def digitVal (c : Char) : Nat := c.toNat - 48

/-- Go's `getnum(s, fixed)` of package `time`: one or two leading digits (exactly two when
`fixed`), with the rest of the text. -/
def getnum (s : List Char) (fixed : Bool) : Option (Nat × List Char) :=
  match s with
  | [] => none
  | c0 :: rest0 =>
    if !isDigit c0 then none
    else
      match rest0 with
      | [] => if fixed then none else some (digitVal c0, rest0)
      | c1 :: rest1 =>
        if isDigit c1 then some (digitVal c0 * 10 + digitVal c1, rest1)
        else if fixed then none
        else some (digitVal c0, rest0)

/-- Go's `time.Parse("020115:04", value)`: two-digit day, two-digit month, hour (one or two
digits), a colon, two-digit minute and nothing else; the day must exist in that month of
year 0 (the year of a layout without a year; year 0 is a leap year).  `none` is a parse
error. -/
def timeParse (value : String) : Option Time := do
  let (day, v) ← getnum value.data true
  let (month, v) ← getnum v true
  if month = 0 ∨ 12 < month then failure
  let (hour, v) ← getnum v false
  if 24 ≤ hour then failure
  let v ← (match v with
    | c :: v1 => if c = ':' then some v1 else none
    | [] => none)
  let (min, v) ← getnum v true
  if 60 ≤ min then failure
  if v ≠ [] then failure
  if day < 1 ∨ day > daysIn month 0 then failure
  pure (Date 0 month day hour min 0 0)

/-! ## Data model and dependencies -/

/-- The record `model.StorageProvisioning`; `F` stands for `float64`. -/
structure StorageProvisioning (F : Type) where
  TimeStart : Option Time
  TimeEnd : Option Time
  CpuDbAvg : F
  CpuDbMax : F
  CpuHostAvg : F
  CpuHostMax : F
  IopsAvg : F
  IopsMax : F
  IombAvg : F
  IombMax : F
deriving DecidableEq, Repr

/-- What the marshaller calls into or reads: the numeric primitive (it returns a value and
an error, as in Go), the error wrapper, the error of a rejected timestamp, the package
variable `currentTime` and the year of `time.Now()` during the call. -/
structure Deps (F E : Type) where
  TrimParseUnsafeFloat64 : String → F × Option E
  NewError : E → E
  timeParseError : String → E
  currentTime : Time
  nowYear : Int

variable {F E : Type}

/-- The call `multierror.Append(merr, errs...)`: the errors are added to the list held by
`merr` (a fresh list when `merr` is nil); the result is never nil. -/
def multierrorAppend (merr : Option (List E)) (errs : List E) : Option (List E) :=
  some (merr.getD [] ++ errs)

/-- The statement `if err != nil { merr = multierror.Append(merr, ercutils.NewError(err)) }`. -/
def noteErr (env : Deps F E) (merr : Option (List E)) (err : Option E) : Option (List E) :=
  match err with
  | some e => multierrorAppend merr [env.NewError e]
  | none => merr

/-- The statement `if err != nil { merr = multierror.Append(merr, err) }` of the caller,
where `err` is the `*multierror.Error` of one row: its errors are appended one by one. -/
def noteRowErr (merr : Option (List E)) (err : Option (List E)) : Option (List E) :=
  match err with
  | some es => multierrorAppend merr es
  | none => merr

/-! ## The two row parsers -/

/-- Source function `parseValues`.  `none` is the index-out-of-range panic. -/
def parseValues (env : Deps F E) (lines : List String) :
    Option (StorageProvisioning F × Option (List E)) := do
  let merr : Option (List E) := none
  let r0 := env.TrimParseUnsafeFloat64 (← lines[0]?)
  let merr := noteErr env merr r0.2
  let r1 := env.TrimParseUnsafeFloat64 (← lines[1]?)
  let merr := noteErr env merr r1.2
  let r2 := env.TrimParseUnsafeFloat64 (← lines[2]?)
  let merr := noteErr env merr r2.2
  let r3 := env.TrimParseUnsafeFloat64 (← lines[3]?)
  let merr := noteErr env merr r3.2
  let r4 := env.TrimParseUnsafeFloat64 (← lines[4]?)
  let merr := noteErr env merr r4.2
  let r5 := env.TrimParseUnsafeFloat64 (← lines[5]?)
  let merr := noteErr env merr r5.2
  let r6 := env.TrimParseUnsafeFloat64 (← lines[6]?)
  let merr := noteErr env merr r6.2
  let r7 := env.TrimParseUnsafeFloat64 (← lines[7]?)
  let merr := noteErr env merr r7.2
  pure ({ TimeStart := none, TimeEnd := none,
          CpuDbAvg := r0.1, CpuDbMax := r1.1, CpuHostAvg := r2.1, CpuHostMax := r3.1,
          IopsAvg := r4.1, IopsMax := r5.1, IombAvg := r6.1, IombMax := r7.1 }, merr)

/-- The value of `start` after `time.Parse` and `start.AddDate(time.Now().Year(), 0, 0)`:
on a parse error `time.Parse` returns the zero time. -/
def timeSeriesStart (env : Deps F E) (field0 : String) : Time :=
  ((timeParse (TrimSpace field0)).getD Time.zero).AddDate env.nowYear 0 0

/-- Source function `parseTimeSeries`.  `none` is the index-out-of-range panic. -/
def parseTimeSeries (env : Deps F E) (lines : List String) :
    Option (StorageProvisioning F × Option (List E)) := do
  let merr : Option (List E) := none
  let f0 ← lines[0]?
  let merr := match timeParse (TrimSpace f0) with
    | none => multierrorAppend merr [env.NewError (env.timeParseError (TrimSpace f0))]
    | some _ => merr
  let start := timeSeriesStart env f0
  let r0 := env.TrimParseUnsafeFloat64 (← lines[1]?)
  let merr := noteErr env merr r0.2
  let r1 := env.TrimParseUnsafeFloat64 (← lines[2]?)
  let merr := noteErr env merr r1.2
  let r2 := env.TrimParseUnsafeFloat64 (← lines[3]?)
  let merr := noteErr env merr r2.2
  let r3 := env.TrimParseUnsafeFloat64 (← lines[4]?)
  let merr := noteErr env merr r3.2
  let r4 := env.TrimParseUnsafeFloat64 (← lines[5]?)
  let merr := noteErr env merr r4.2
  let r5 := env.TrimParseUnsafeFloat64 (← lines[6]?)
  let merr := noteErr env merr r5.2
  let r6 := env.TrimParseUnsafeFloat64 (← lines[7]?)
  let merr := noteErr env merr r6.2
  let r7 := env.TrimParseUnsafeFloat64 (← lines[8]?)
  let merr := noteErr env merr r7.2
  pure ({ TimeStart := some start, TimeEnd := none,
          CpuDbAvg := r0.1, CpuDbMax := r1.1, CpuHostAvg := r2.1, CpuHostMax := r3.1,
          IopsAvg := r4.1, IopsMax := r5.1, IombAvg := r6.1, IombMax := r7.1 }, merr)

/-! ## The scanning loop -/

/-- The `switch i` of `StorageProvisionings`: the values of `start` and `end` for the row
index `i`; both stay nil when no case applies. -/
def switchWindow (currentTime : Time) (i : Nat) : Option Time × Option Time :=
  match i with
  | 0 => (some (currentTime.AddDate 0 0 (-30)), some currentTime)
  | 1 => (some (currentTime.AddDate 0 0 (-7)), some currentTime)
  | 2 => (some (currentTime.AddDate 0 0 (-14)), some (currentTime.AddDate 0 0 (-8)))
  | 3 => (some (currentTime.AddDate 0 0 (-21)), some (currentTime.AddDate 0 0 (-15)))
  | 4 => (some (currentTime.AddDate 0 0 (-28)), some (currentTime.AddDate 0 0 (-22)))
  | 5 => (some currentTime, none)
  | 6 => (some (currentTime.AddDate 0 0 (-1)), some currentTime)
  | 7 => (some (currentTime.AddDate 0 0 (-2)), some (currentTime.AddDate 0 0 (-1)))
  | 8 => (some (currentTime.AddDate 0 0 (-3)), some (currentTime.AddDate 0 0 (-2)))
  | 9 => (some (currentTime.AddDate 0 0 (-4)), some (currentTime.AddDate 0 0 (-3)))
  | 10 => (some (currentTime.AddDate 0 0 (-5)), some (currentTime.AddDate 0 0 (-4)))
  | 11 => (some (currentTime.AddDate 0 0 (-6)), some (currentTime.AddDate 0 0 (-5)))
  | _ => (none, none)

/-- The variables of the loop: the row index `i`, the records `res` and the error `merr`. -/
structure LoopState (F E : Type) where
  i : Nat
  res : List (StorageProvisioning F)
  merr : Option (List E)
deriving DecidableEq, Repr

/-- The state before the first line. -/
def LoopState.init : LoopState F E := { i := 0, res := [], merr := none }

/-- The sentinel test `line == "BEGINOUTPUT" || line == "ENDOUTPUT"`. -/
def isSentinel (line : String) : Bool :=
  line = "BEGINOUTPUT" || line = "ENDOUTPUT"

/-- The block `if len(splitted) == 8 { ... }` of the loop body. -/
def summaryBlock (env : Deps F E) (st : LoopState F E) (splitted : List String) :
    Option (LoopState F E) :=
  if splitted.length = 8 then do
    let w := switchWindow env.currentTime st.i
    let (sp, err) ← parseValues env splitted
    let merr := noteRowErr st.merr err
    let sp := { sp with TimeStart := w.1, TimeEnd := w.2 }
    pure { st with res := st.res ++ [sp], merr := merr }
  else pure st

/-- The block `if i > 11 { ... }` of the loop body. -/
def timeSeriesBlock (env : Deps F E) (st : LoopState F E) (splitted : List String) :
    Option (LoopState F E) :=
  if st.i > 11 then do
    let (sp, err) ← parseTimeSeries env splitted
    let merr := noteRowErr st.merr err
    pure { st with res := st.res ++ [sp], merr := merr }
  else pure st

/-- One iteration of `for scanner.Scan() { ... }` on the line `line`. -/
def step (env : Deps F E) (st : LoopState F E) (line : String) : Option (LoopState F E) :=
  if isSentinel line then some st
  else
    let splitted := Split line
    if Contains splitted "N/A" then some { st with i := st.i + 1 }
    else do
      let st1 ← summaryBlock env st splitted
      let st2 ← timeSeriesBlock env st1 splitted
      pure { st2 with i := st2.i + 1 }

/-- The loop run from the state `st` over the remaining lines. -/
def scanFrom (env : Deps F E) (st : LoopState F E) : List String → Option (LoopState F E)
  | [] => some st
  | line :: rest =>
    match step env st line with
    | none => none
    | some st1 => scanFrom env st1 rest

/-- The whole loop. -/
def scan (env : Deps F E) (lines : List String) : Option (LoopState F E) :=
  scanFrom env LoopState.init lines

/-- What `StorageProvisionings` returns: the record slice (`none` is the nil slice) and the
error (`none` is the nil error). -/
structure Result (F E : Type) where
  records : Option (List (StorageProvisioning F))
  err : Option (List E)
deriving DecidableEq, Repr

/-- The statements after the loop: `if merr != nil { return nil, merr }; return res, nil`. -/
def finish (st : LoopState F E) : Result F E :=
  match st.merr with
  | some es => { records := none, err := some es }
  | none => { records := some st.res, err := none }

/-- Source function `StorageProvisionings`, on the lines of `cmdOutput`.  `none` is a
panic. -/
def StorageProvisionings (env : Deps F E) (lines : List String) : Option (Result F E) :=
  (scan env lines).map finish

/-! ## A sample instance of the dependencies, for concrete runs -/

/-- A decimal number: sign, the digits without the point, and the number of digits after
the point (`10.5` is `⟨false, 105, 1⟩`). -/
structure Decimal where
  neg : Bool
  digits : Nat
  scale : Nat
deriving DecidableEq, Repr

/-- The digits at the head of the text, accumulated in base ten, with their count and the
rest of the text. -/
def readDigits : Nat → Nat → List Char → Nat × Nat × List Char
  | acc, n, [] => (acc, n, [])
  | acc, n, c :: cs =>
    if isDigit c then readDigits (acc * 10 + digitVal c) (n + 1) cs else (acc, n, c :: cs)

/-- Modelled from the spec: the numeric conversion primitive
`marshal.TrimParseUnsafeFloat64(·, marshal.TrimParseFloat64)` (package `marshal`, not in
the sources at hand): "parse a trimmed string as a 64-bit float; fail with a descriptive
error on non-numeric input".  This stand-in accepts an optional minus sign, digits and an
optional fraction, keeps the value as an exact decimal, and returns zero with an error
naming the text otherwise. -/
def sampleParse (s : String) : Decimal × Option String :=
  let t := (TrimSpace s).data
  let neg := t.head? = some '-'
  let body := if neg then t.tail else t
  let bad : Decimal × Option String := (⟨false, 0, 0⟩, some ("not a number: " ++ s))
  match readDigits 0 0 body with
  | (_, 0, _) => bad
  | (a, _, []) => (⟨neg, a, 0⟩, none)
  | (a, _, c :: frac) =>
    if c = '.' then
      match readDigits a 0 frac with
      | (_, 0, _) => bad
      | (b, k, []) => (⟨neg, b, k⟩, none)
      | _ => bad
    else bad

/-- A sample reference instant: 15 March 2023, 10:30:00. -/
def sampleNow : Time :=
  { year := 2023, month := 3, day := 15, hour := 10, minute := 30, second := 0, nsec := 0 }

/-- Sample dependencies: the stand-in primitive, errors as texts, and a fixed clock. -/
def sampleDeps : Deps Decimal String :=
  { TrimParseUnsafeFloat64 := sampleParse
    NewError := fun e => e
    timeParseError := fun v => "cannot parse time: " ++ v
    currentTime := sampleNow
    nowYear := 2023 }

/-! ## Notions used to state the properties -/

/-- The lines that are not sentinel lines: the rows. -/
def dataRows (lines : List String) : List String :=
  lines.filter (fun l => !isSentinel l)

/-- The row index of the line that follows `pre`: the number of rows in `pre`. -/
def rowIndex (pre : List String) : Nat :=
  (dataRows pre).length

/-- The `error` that holds the given errors: nil when there is none. -/
def ofErrList (es : List E) : Option (List E) :=
  if es.isEmpty then none else some es

/-- The wrapped errors of the numeric conversions of the given fields, in field order. -/
def convErrs (env : Deps F E) (fields : List String) : List E :=
  fields.filterMap (fun f => (env.TrimParseUnsafeFloat64 f).2.map env.NewError)

/-- The wrapped error of the timestamp conversion of a time-series row, if it fails. -/
def stampErrs (env : Deps F E) (field0 : String) : List E :=
  match timeParse (TrimSpace field0) with
  | none => [env.NewError (env.timeParseError (TrimSpace field0))]
  | some _ => []

/-- The record that the loop appends for an 8-field row at row index `j`. -/
def summaryRecord (env : Deps F E) (j : Nat) (row : String) :
    Option (StorageProvisioning F) :=
  (parseValues env (Split row)).map (fun p =>
    { p.1 with TimeStart := (switchWindow env.currentTime j).1,
               TimeEnd := (switchWindow env.currentTime j).2 })

/-- The record that the loop appends for a time-series row. -/
def timeSeriesRecord (env : Deps F E) (row : String) : Option (StorageProvisioning F) :=
  (parseTimeSeries env (Split row)).map (fun p => p.1)

/-- The record built from the row at index `j`: by the summary variant and the window of
`j` for an 8-field row, by the time-series variant otherwise. -/
def rowRecord (env : Deps F E) (j : Nat) (row : String) : Option (StorageProvisioning F) :=
  if (Split row).length = 8 then summaryRecord env j row else timeSeriesRecord env row

/-- An 8-field row without an `N/A` field, all of whose fields convert. -/
def goodSummaryRow (env : Deps F E) (row : String) : Prop :=
  (Split row).length = 8 ∧ Contains (Split row) "N/A" = false ∧
    ∀ f ∈ Split row, (env.TrimParseUnsafeFloat64 f).2 = none

/-- A 9-field row without an `N/A` field, whose timestamp parses and whose eight metric
fields convert. -/
def goodTimeSeriesRow (env : Deps F E) (row : String) : Prop :=
  (Split row).length = 9 ∧ Contains (Split row) "N/A" = false ∧
    (∀ f0 ∈ (Split row).head?, (timeParse (TrimSpace f0)).isSome) ∧
    ∀ f ∈ (Split row).tail, (env.TrimParseUnsafeFloat64 f).2 = none

instance [DecidableEq E] (env : Deps F E) (row : String) :
    Decidable (goodSummaryRow env row) := by
  unfold goodSummaryRow
  infer_instance

instance [DecidableEq E] (env : Deps F E) (row : String) :
    Decidable (goodTimeSeriesRow env row) := by
  unfold goodTimeSeriesRow
  infer_instance

/-- The instant `n` days before `T`: `T.AddDate(0, 0, -n)`. -/
def daysBefore (T : Time) (n : Nat) : Time :=
  T.AddDate 0 0 (-(n : Int))

/-- The time-window table of the specification, entry `i` being the pair (TimeStart,
TimeEnd) of row index `i`, relative to the reference instant `T`. -/
def windowTable (T : Time) : List (Option Time × Option Time) :=
  [ (some (daysBefore T 30), some T),
    (some (daysBefore T 7), some T),
    (some (daysBefore T 14), some (daysBefore T 8)),
    (some (daysBefore T 21), some (daysBefore T 15)),
    (some (daysBefore T 28), some (daysBefore T 22)),
    (some T, none),
    (some (daysBefore T 1), some T),
    (some (daysBefore T 2), some (daysBefore T 1)),
    (some (daysBefore T 3), some (daysBefore T 2)),
    (some (daysBefore T 4), some (daysBefore T 3)),
    (some (daysBefore T 5), some (daysBefore T 4)),
    (some (daysBefore T 6), some (daysBefore T 5)) ]

/-! ## Sample inputs -/

/-- Twelve 8-field rows. -/
def sampleSummaryRows : List String :=
  [ "10.5|||20.1|||5.0|||9.9|||100.0|||200.0|||1.1|||2.2",
    "1|||2|||3|||4|||5|||6|||7|||8", "1|||2|||3|||4|||5|||6|||7|||8",
    "1|||2|||3|||4|||5|||6|||7|||8", "1|||2|||3|||4|||5|||6|||7|||8",
    "1|||2|||3|||4|||5|||6|||7|||8", "1|||2|||3|||4|||5|||6|||7|||8",
    "1|||2|||3|||4|||5|||6|||7|||8", "1|||2|||3|||4|||5|||6|||7|||8",
    "1|||2|||3|||4|||5|||6|||7|||8", "1|||2|||3|||4|||5|||6|||7|||8",
    "1|||2|||3|||4|||5|||6|||7|||8" ]

/-- Two 9-field rows. -/
def sampleTimeSeriesRows : List String :=
  [ "231015:30|||1|||2|||3|||4|||5|||6|||7|||8",
    "24109:00|||1|||2|||3|||4|||5|||6|||7|||8" ]

/-- The sample rows between the two sentinel lines. -/
def sampleLines : List String :=
  "BEGINOUTPUT" :: sampleSummaryRows ++ sampleTimeSeriesRows ++ ["ENDOUTPUT"]

/-! ## The errors of a run -/

/-- The errors that the conversions attempted on one line produce, in the order of the
attempts, `i` being the row index at that line: the eight fields of an 8-field row; at an
index above 11 the timestamp and the fields 1 to 8.  Sentinel lines and rows with an `N/A`
field are not converted. -/
def rowErrs (env : Deps F E) (i : Nat) (line : String) : List E :=
  if isSentinel line ∨ Contains (Split line) "N/A" then []
  else
    (if (Split line).length = 8 then convErrs env (Split line) else []) ++
    (if 11 < i then
      stampErrs env ((Split line).headD "") ++ convErrs env (((Split line).tail).take 8)
     else [])

/-- The errors of the lines, in line order, the first line being at row index `i`. -/
def errsFrom (env : Deps F E) (i : Nat) : List String → List E
  | [] => []
  | l :: ls => rowErrs env i l ++ errsFrom env (i + (if isSentinel l then 0 else 1)) ls

/-- Some conversion attempted on the row at index `i` fails: the conversion of a field of
an 8-field row, or, at an index above 11, of the timestamp or of one of the fields 1 to 8. -/
def conversionFails (env : Deps F E) (i : Nat) (row : String) : Prop :=
  ((Split row).length = 8 ∧ ∃ f ∈ Split row, (env.TrimParseUnsafeFloat64 f).2 ≠ none) ∨
  (11 < i ∧ (timeParse (TrimSpace ((Split row).headD "")) = none ∨
    ∃ f ∈ ((Split row).tail).take 8, (env.TrimParseUnsafeFloat64 f).2 ≠ none))

/-- Twelve 8-field rows of which row 3 has a non-numeric value in field 2. -/
def sampleBadRows : List String :=
  [ "1|||2|||3|||4|||5|||6|||7|||8", "1|||2|||3|||4|||5|||6|||7|||8",
    "1|||2|||3|||4|||5|||6|||7|||8", "1|||2|||abc|||4|||5|||6|||7|||8",
    "1|||2|||3|||4|||5|||6|||7|||8", "1|||2|||3|||4|||5|||6|||7|||8",
    "1|||2|||3|||4|||5|||6|||7|||8", "1|||2|||3|||4|||5|||6|||7|||8",
    "1|||2|||3|||4|||5|||6|||7|||8", "1|||2|||3|||4|||5|||6|||7|||8",
    "1|||2|||3|||4|||5|||6|||7|||8", "1|||2|||3|||4|||5|||6|||7|||8" ]

/-! ## Serialising rows -/

/-- The fields joined with the separator `|||` between them. -/
def joinBars : List (List Char) → List Char
  | [] => []
  | [f] => f
  | f :: g :: rest => f ++ '|' :: '|' :: '|' :: joinBars (g :: rest)

/-- Go's `strings.Join(fields, "|||")`: how a row is serialised. -/
def Join (fields : List String) : String :=
  String.mk (joinBars (fields.map String.data))

/-- The record with the window `w` that carries, in order, the converted values of the
fields 0 to 7 of `fs`. -/
def valuesRecord (env : Deps F E) (w : Option Time × Option Time) (fs : List String) :
    StorageProvisioning F :=
  { TimeStart := w.1, TimeEnd := w.2,
    CpuDbAvg := (env.TrimParseUnsafeFloat64 (fs.getD 0 "")).1,
    CpuDbMax := (env.TrimParseUnsafeFloat64 (fs.getD 1 "")).1,
    CpuHostAvg := (env.TrimParseUnsafeFloat64 (fs.getD 2 "")).1,
    CpuHostMax := (env.TrimParseUnsafeFloat64 (fs.getD 3 "")).1,
    IopsAvg := (env.TrimParseUnsafeFloat64 (fs.getD 4 "")).1,
    IopsMax := (env.TrimParseUnsafeFloat64 (fs.getD 5 "")).1,
    IombAvg := (env.TrimParseUnsafeFloat64 (fs.getD 6 "")).1,
    IombMax := (env.TrimParseUnsafeFloat64 (fs.getD 7 "")).1 }

/-- Eight fields that can be serialised and parsed back: no field contains the character
`|`, none is `N/A`, and each converts. -/
def goodFields (env : Deps F E) (fs : List String) : Prop :=
  fs.length = 8 ∧ ∀ f ∈ fs, (∀ c ∈ f.data, c ≠ '|') ∧ f ≠ "N/A" ∧
    (env.TrimParseUnsafeFloat64 f).2 = none

instance [DecidableEq E] (env : Deps F E) (fs : List String) :
    Decidable (goodFields env fs) := by
  unfold goodFields
  infer_instance

/-- Two rows given by their fields; the second is the example row of the specification. -/
def sampleFieldRows : List (List String) :=
  [ ["1", "2", "3", "4", "5", "6", "7", "8"],
    ["10.5", "20.1", "5.0", "9.9", "100.0", "200.0", "1.1", "2.2"] ]

/-! ## Counting failed conversions -/

/-- The number of fields whose numeric conversion fails. -/
def failedFields (env : Deps F E) (fields : List String) : Nat :=
  fields.countP (fun f => (env.TrimParseUnsafeFloat64 f).2.isSome)

/-- The number of conversions that fail on one line at row index `i`: among the eight
fields of an 8-field row; at an index above 11, the timestamp and the fields 1 to 8. -/
def rowFailures (env : Deps F E) (i : Nat) (line : String) : Nat :=
  if isSentinel line ∨ Contains (Split line) "N/A" then 0
  else
    (if (Split line).length = 8 then failedFields env (Split line) else 0) +
    (if 11 < i then
      (if (timeParse (TrimSpace ((Split line).headD ""))).isSome then 0 else 1) +
        failedFields env (((Split line).tail).take 8)
     else 0)

/-- The number of failed conversions over the lines, the first line at row index `i`. -/
def failuresFrom (env : Deps F E) (i : Nat) : List String → Nat
  | [] => 0
  | l :: ls => rowFailures env i l + failuresFrom env (i + (if isSentinel l then 0 else 1)) ls

/-- Twelve 8-field rows, row 3 with a non-numeric field, then a time-series row whose
timestamp and field 2 do not parse. -/
def sampleBadLines : List String :=
  "BEGINOUTPUT" :: sampleBadRows ++ ["xx|||1|||a|||3|||4|||5|||6|||7|||8", "ENDOUTPUT"]

/-! ## A second clock -/

/-- The sample dependencies with the same captured `currentTime`, used when the clock
shows the year 2024. -/
def sampleDepsNextYear : Deps Decimal String :=
  { sampleDeps with nowYear := 2024 }

/-! ## Rows with their index -/

/-- The property `P` holds of every line taken with its row index, the first line being at
row index `i`. -/
def allRows (P : Nat → String → Prop) (i : Nat) : List String → Prop
  | [] => True
  | l :: ls => P i l ∧ allRows P (i + (if isSentinel l then 0 else 1)) ls

/-- A row that is passed to `parseTimeSeries` with fewer than nine fields: a non-sentinel
row without an `N/A` field at a row index above 11. -/
def lateShort (i : Nat) (line : String) : Prop :=
  isSentinel line = false ∧ Contains (Split line) "N/A" = false ∧ 11 < i ∧
    (Split line).length < 9

/-- Whether the line at row index `i` is dispatched to a parser: a row without an `N/A`
field that has 8 fields or stands at an index above 11. -/
def isDispatched (i : Nat) (line : String) : Bool :=
  !isSentinel line && !Contains (Split line) "N/A" &&
    (decide ((Split line).length = 8) || decide (11 < i))

/-- The dispatched rows of the input with their row indices, in input order. -/
def dispatchedRows (i : Nat) : List String → List (Nat × String)
  | [] => []
  | l :: ls =>
    (if isDispatched i l then [(i, l)] else []) ++
      dispatchedRows (i + (if isSentinel l then 0 else 1)) ls

/-- The window shape of a returned record `r` built from the row `p.2` at index `p.1`: it
is the record of that row, its TimeStart is present, and its TimeEnd is absent when the
row is not an 8-field row. -/
def shapeOK (env : Deps F E) (p : Nat × String) (r : StorageProvisioning F) : Prop :=
  rowRecord env p.1 p.2 = some r ∧ r.TimeStart.isSome = true ∧
    ((Split p.2).length ≠ 8 → r.TimeEnd = none)

/-- The records that the call returns on the sample input. -/
def sampleRecords : List (StorageProvisioning Decimal) :=
  ((StorageProvisionings sampleDeps sampleLines).bind (fun r => r.records)).getD []

/-- Rows that are skipped or dropped, with text that would not convert, among 8-field
rows. -/
def sampleMixedLines : List String :=
  [ "BEGINOUTPUT", "N/A|||x|||y", "1|||2|||3|||4|||5|||6|||7|||8", "not numbers|||at all",
    "", "1|||2|||3|||4|||5|||6|||7|||8", "ENDOUTPUT" ]

/-- A batch of thirteen rows of eight numeric fields each. -/
def sampleThirteenFieldRows : List (List String) :=
  List.replicate 13 ["1", "2", "3", "4", "5", "6", "7", "8"]

end StorageProv

/-! # Theorems -/

namespace StorageProv

variable {F E : Type}

/-! ## Errors -/

theorem ofErrList_nil : ofErrList ([] : List E) = none := by
  simp [ofErrList]

theorem ofErrList_eq_none {es : List E} : ofErrList es = none ↔ es = [] := by
  unfold ofErrList
  cases es <;> simp

theorem multierrorAppend_ofErrList (l es : List E) (h : es ≠ []) :
    multierrorAppend (ofErrList l) es = ofErrList (l ++ es) := by
  unfold multierrorAppend ofErrList
  cases l with
  | nil => cases es <;> simp at h ⊢
  | cons a l => simp

theorem noteErr_ofErrList (env : Deps F E) (l : List E) (e : Option E) :
    noteErr env (ofErrList l) e = ofErrList (l ++ (e.map env.NewError).toList) := by
  cases e with
  | none => simp [noteErr]
  | some e =>
    simp only [noteErr, Option.map_some', Option.toList_some]
    exact multierrorAppend_ofErrList l [env.NewError e] (by simp)

theorem noteRowErr_ofErrList (l es : List E) :
    noteRowErr (ofErrList l) (ofErrList es) = ofErrList (l ++ es) := by
  by_cases h : es = []
  · subst h
    cases l <;> simp [noteRowErr, ofErrList]
  · have : ofErrList es = some es := by
      cases es <;> simp [ofErrList] at h ⊢
    rw [this]
    exact multierrorAppend_ofErrList l es h

theorem foldl_noteErr (env : Deps F E) (es : List (Option E)) (l : List E) :
    es.foldl (noteErr env) (ofErrList l)
      = ofErrList (l ++ es.filterMap (fun e => e.map env.NewError)) := by
  induction es generalizing l with
  | nil => simp
  | cons e es ih =>
    rw [List.foldl_cons, noteErr_ofErrList, ih]
    cases e <;> simp

/-! ## The row parsers on lists of known length -/

theorem length_eq_eight {α : Type} {l : List α} (h : l.length = 8) :
    ∃ a b c d e f g k, l = [a, b, c, d, e, f, g, k] := by
  match l, h with
  | [a, b, c, d, e, f, g, k], _ => exact ⟨a, b, c, d, e, f, g, k, rfl⟩

theorem parseValues_eight (env : Deps F E) (f0 f1 f2 f3 f4 f5 f6 f7 : String)
    (rest : List String) :
    parseValues env (f0 :: f1 :: f2 :: f3 :: f4 :: f5 :: f6 :: f7 :: rest)
      = some ({ TimeStart := none, TimeEnd := none,
                CpuDbAvg := (env.TrimParseUnsafeFloat64 f0).1,
                CpuDbMax := (env.TrimParseUnsafeFloat64 f1).1,
                CpuHostAvg := (env.TrimParseUnsafeFloat64 f2).1,
                CpuHostMax := (env.TrimParseUnsafeFloat64 f3).1,
                IopsAvg := (env.TrimParseUnsafeFloat64 f4).1,
                IopsMax := (env.TrimParseUnsafeFloat64 f5).1,
                IombAvg := (env.TrimParseUnsafeFloat64 f6).1,
                IombMax := (env.TrimParseUnsafeFloat64 f7).1 },
              ofErrList (convErrs env [f0, f1, f2, f3, f4, f5, f6, f7])) := by
  have h := foldl_noteErr env
    [(env.TrimParseUnsafeFloat64 f0).2, (env.TrimParseUnsafeFloat64 f1).2,
     (env.TrimParseUnsafeFloat64 f2).2, (env.TrimParseUnsafeFloat64 f3).2,
     (env.TrimParseUnsafeFloat64 f4).2, (env.TrimParseUnsafeFloat64 f5).2,
     (env.TrimParseUnsafeFloat64 f6).2, (env.TrimParseUnsafeFloat64 f7).2] []
  simp only [List.foldl_cons, List.foldl_nil, List.nil_append, ofErrList_nil] at h
  simp only [parseValues, List.getElem?_cons_zero, List.getElem?_cons_succ, Option.bind_eq_bind,
    Option.some_bind, Option.pure_def, bind_pure_comp, Option.map_eq_map, Option.map_some']
  rw [h]
  simp [convErrs, List.filterMap_cons]

theorem parseTimeSeries_nine (env : Deps F E) (f0 f1 f2 f3 f4 f5 f6 f7 f8 : String)
    (rest : List String) :
    parseTimeSeries env (f0 :: f1 :: f2 :: f3 :: f4 :: f5 :: f6 :: f7 :: f8 :: rest)
      = some ({ TimeStart := some (timeSeriesStart env f0), TimeEnd := none,
                CpuDbAvg := (env.TrimParseUnsafeFloat64 f1).1,
                CpuDbMax := (env.TrimParseUnsafeFloat64 f2).1,
                CpuHostAvg := (env.TrimParseUnsafeFloat64 f3).1,
                CpuHostMax := (env.TrimParseUnsafeFloat64 f4).1,
                IopsAvg := (env.TrimParseUnsafeFloat64 f5).1,
                IopsMax := (env.TrimParseUnsafeFloat64 f6).1,
                IombAvg := (env.TrimParseUnsafeFloat64 f7).1,
                IombMax := (env.TrimParseUnsafeFloat64 f8).1 },
              ofErrList (stampErrs env f0 ++ convErrs env [f1, f2, f3, f4, f5, f6, f7, f8])) := by
  have h := foldl_noteErr env
    [(env.TrimParseUnsafeFloat64 f1).2, (env.TrimParseUnsafeFloat64 f2).2,
     (env.TrimParseUnsafeFloat64 f3).2, (env.TrimParseUnsafeFloat64 f4).2,
     (env.TrimParseUnsafeFloat64 f5).2, (env.TrimParseUnsafeFloat64 f6).2,
     (env.TrimParseUnsafeFloat64 f7).2, (env.TrimParseUnsafeFloat64 f8).2] (stampErrs env f0)
  have h0 : (match timeParse (TrimSpace f0) with
      | none => multierrorAppend (none : Option (List E))
          [env.NewError (env.timeParseError (TrimSpace f0))]
      | some _ => none) = ofErrList (stampErrs env f0) := by
    unfold stampErrs
    cases timeParse (TrimSpace f0) <;> simp [multierrorAppend, ofErrList]
  simp only [List.foldl_cons, List.foldl_nil] at h
  simp only [parseTimeSeries, List.getElem?_cons_zero, List.getElem?_cons_succ,
    Option.bind_eq_bind, Option.some_bind, Option.pure_def, bind_pure_comp, Option.map_eq_map,
    Option.map_some']
  rw [h0, h]
  simp [convErrs, List.filterMap_cons]

/-- A field list shorter than nine makes `parseTimeSeries` index past its end. -/
theorem parseTimeSeries_short (env : Deps F E) (l : List String) (h : l.length < 9) :
    parseTimeSeries env l = none := by
  match l, h with
  | [], _ => simp [parseTimeSeries]
  | [_], _ => simp [parseTimeSeries]
  | [_, _], _ => simp [parseTimeSeries]
  | [_, _, _], _ => simp [parseTimeSeries]
  | [_, _, _, _], _ => simp [parseTimeSeries]
  | [_, _, _, _, _], _ => simp [parseTimeSeries]
  | [_, _, _, _, _, _], _ => simp [parseTimeSeries]
  | [_, _, _, _, _, _, _], _ => simp [parseTimeSeries]
  | [_, _, _, _, _, _, _, _], _ => simp [parseTimeSeries]

/-! ## One iteration of the loop -/

theorem isSentinel_iff (line : String) :
    isSentinel line = true ↔ line = "BEGINOUTPUT" ∨ line = "ENDOUTPUT" := by
  simp [isSentinel]

theorem step_sentinel (env : Deps F E) (st : LoopState F E) (line : String)
    (h : isSentinel line = true) : step env st line = some st := by
  simp [step, h]

/-- A sentinel line has a single field, which is not `N/A`. -/
theorem sentinel_fields (line : String) (h : isSentinel line = true) :
    (Split line).length = 1 ∧ Contains (Split line) "N/A" = false := by
  rcases (isSentinel_iff line).1 h with rfl | rfl <;> decide

theorem not_sentinel_of_na (line : String) (h : Contains (Split line) "N/A" = true) :
    isSentinel line = false := by
  cases hs : isSentinel line with
  | false => rfl
  | true => rw [(sentinel_fields line hs).2] at h; exact absurd h (by decide)

theorem not_sentinel_of_length (line : String) (h : (Split line).length ≠ 1) :
    isSentinel line = false := by
  cases hs : isSentinel line with
  | false => rfl
  | true => exact absurd (sentinel_fields line hs).1 h

theorem step_na (env : Deps F E) (st : LoopState F E) (line : String)
    (h : Contains (Split line) "N/A" = true) :
    step env st line = some { st with i := st.i + 1 } := by
  simp [step, h, not_sentinel_of_na line h]

theorem step_summary (env : Deps F E) (st : LoopState F E) (line : String)
    (hlen : (Split line).length = 8) (hna : Contains (Split line) "N/A" = false)
    (hi : st.i ≤ 11) :
    ∃ sp, summaryRecord env st.i line = some sp ∧
      step env st line = some
        { i := st.i + 1, res := st.res ++ [sp],
          merr := noteRowErr st.merr (ofErrList (convErrs env (Split line))) } := by
  have hs : isSentinel line = false := not_sentinel_of_length line (by omega)
  obtain ⟨a, b, c, d, e, f, g, k, hl⟩ := length_eq_eight hlen
  have hi2 : ¬ st.i > 11 := by omega
  rw [hl] at hna
  simp only [summaryRecord, hl, parseValues_eight, Option.map_some']
  refine ⟨_, rfl, ?_⟩
  simp [step, hs, hna, summaryBlock, timeSeriesBlock, hl, parseValues_eight, hi2]

theorem step_drop (env : Deps F E) (st : LoopState F E) (line : String)
    (hs : isSentinel line = false) (hlen : (Split line).length ≠ 8)
    (hna : Contains (Split line) "N/A" = false) (hi : st.i ≤ 11) :
    step env st line = some { st with i := st.i + 1 } := by
  have hi2 : ¬ st.i > 11 := by omega
  simp [step, hs, hna, summaryBlock, timeSeriesBlock, hlen, hi2]

theorem step_timeSeries (env : Deps F E) (st : LoopState F E) (line : String)
    (hlen : 9 ≤ (Split line).length) (hna : Contains (Split line) "N/A" = false)
    (hi : 11 < st.i) :
    ∃ sp, timeSeriesRecord env line = some sp ∧
      step env st line = some
        { i := st.i + 1, res := st.res ++ [sp],
          merr := noteRowErr st.merr (ofErrList
            (stampErrs env ((Split line).headD "") ++
              convErrs env (((Split line).tail).take 8))) } := by
  have hs : isSentinel line = false := not_sentinel_of_length line (by omega)
  have hlen8 : (Split line).length ≠ 8 := by omega
  match hl : Split line, hlen with
  | f0 :: f1 :: f2 :: f3 :: f4 :: f5 :: f6 :: f7 :: f8 :: rest, _ =>
    rw [hl] at hna hlen8
    simp only [timeSeriesRecord, hl, parseTimeSeries_nine, Option.map_some']
    refine ⟨_, rfl, ?_⟩
    simp [step, hs, hna, summaryBlock, timeSeriesBlock, hl, parseTimeSeries_nine, hi]

/-- An 8-field row at a row index above 11 runs both blocks: the summary record is built
and then `parseTimeSeries` indexes element 8 of an 8-element slice. -/
theorem step_eight_late (env : Deps F E) (st : LoopState F E) (line : String)
    (hlen : (Split line).length = 8) (hna : Contains (Split line) "N/A" = false)
    (hi : 11 < st.i) : step env st line = none := by
  have hs : isSentinel line = false := not_sentinel_of_length line (by omega)
  obtain ⟨a, b, c, d, e, f, g, k, hl⟩ := length_eq_eight hlen
  rw [hl] at hna
  simp [step, hs, hna, summaryBlock, timeSeriesBlock, hl, parseValues_eight, hi,
    parseTimeSeries_short]

/-- A row at an index above 11 with fewer than nine fields (and no `N/A`) panics. -/
theorem step_short_late (env : Deps F E) (st : LoopState F E) (line : String)
    (hs : isSentinel line = false) (hlen : (Split line).length < 9)
    (hna : Contains (Split line) "N/A" = false) (hi : 11 < st.i) :
    step env st line = none := by
  by_cases h8 : (Split line).length = 8
  · exact step_eight_late env st line h8 hna hi
  · simp [step, hs, hna, summaryBlock, timeSeriesBlock, h8, hi, parseTimeSeries_short, hlen]

/-! ## The loop as a whole -/

theorem scanFrom_append (env : Deps F E) (st : LoopState F E) (a b : List String) :
    scanFrom env st (a ++ b) = (scanFrom env st a).bind (fun s => scanFrom env s b) := by
  induction a generalizing st with
  | nil => simp [scanFrom]
  | cons l a ih =>
    simp only [List.cons_append, scanFrom]
    cases step env st l with
    | none => simp
    | some s => simpa using ih s

/-- Sentinel lines do not take part in the loop. -/
theorem scanFrom_dataRows (env : Deps F E) (st : LoopState F E) (lines : List String) :
    scanFrom env st lines = scanFrom env st (dataRows lines) := by
  induction lines generalizing st with
  | nil => rfl
  | cons l lines ih =>
    cases hs : isSentinel l with
    | true =>
      have : dataRows (l :: lines) = dataRows lines := by simp [dataRows, hs]
      rw [this, scanFrom, step_sentinel env st l hs]
      exact ih st
    | false =>
      have : dataRows (l :: lines) = l :: dataRows lines := by simp [dataRows, hs]
      rw [this, scanFrom, scanFrom]
      cases step env st l with
      | none => rfl
      | some s => exact ih s

theorem dataRows_append (a b : List String) : dataRows (a ++ b) = dataRows a ++ dataRows b := by
  simp [dataRows]

theorem dataRows_idem (a : List String) : dataRows (dataRows a) = dataRows a := by
  simp [dataRows]

theorem rowIndex_append (a b : List String) : rowIndex (a ++ b) = rowIndex a + rowIndex b := by
  simp [rowIndex, dataRows_append]

/-- What one iteration can do to the state: the index advances exactly on a row, the
records only grow at the end, and an error once set stays set. -/
theorem step_effect (env : Deps F E) (st st1 : LoopState F E) (line : String)
    (h : step env st line = some st1) :
    st1.i = st.i + (if isSentinel line then 0 else 1) ∧
      (∃ more, st1.res = st.res ++ more) ∧ (st.merr ≠ none → st1.merr ≠ none) := by
  have hgrow : ∀ (m : Option (List E)) (x : Option (List E)), m ≠ none → noteRowErr m x ≠ none := by
    intro m x hm
    cases x <;> simp [noteRowErr, multierrorAppend, hm]
  cases hs : isSentinel line with
  | true =>
    rw [step_sentinel env st line hs] at h
    cases h
    simp
  | false =>
    cases hna : Contains (Split line) "N/A" with
    | true =>
      rw [step_na env st line hna] at h
      cases h
      simp
    | false =>
      by_cases hi : st.i ≤ 11
      · by_cases h8 : (Split line).length = 8
        · obtain ⟨sp, _, hstep⟩ := step_summary env st line h8 hna hi
          rw [hstep] at h
          cases h
          exact ⟨by simp, ⟨[sp], rfl⟩, hgrow _ _⟩
        · rw [step_drop env st line hs h8 hna hi] at h
          cases h
          simp
      · have hi2 : 11 < st.i := by omega
        by_cases h9 : 9 ≤ (Split line).length
        · obtain ⟨sp, _, hstep⟩ := step_timeSeries env st line h9 hna hi2
          rw [hstep] at h
          cases h
          exact ⟨by simp, ⟨[sp], rfl⟩, hgrow _ _⟩
        · rw [step_short_late env st line hs (by omega) hna hi2] at h
          cases h

theorem scanFrom_effect (env : Deps F E) (st st1 : LoopState F E) (lines : List String)
    (h : scanFrom env st lines = some st1) :
    st1.i = st.i + rowIndex lines ∧
      (∃ more, st1.res = st.res ++ more) ∧ (st.merr ≠ none → st1.merr ≠ none) := by
  induction lines generalizing st with
  | nil =>
    simp only [scanFrom, Option.some.injEq] at h
    subst h
    simp [rowIndex, dataRows]
  | cons l lines ih =>
    rw [scanFrom] at h
    cases hstep : step env st l with
    | none => rw [hstep] at h; cases h
    | some s =>
      rw [hstep] at h
      obtain ⟨hi, ⟨m1, hm1⟩, he⟩ := step_effect env st s l hstep
      obtain ⟨hi2, ⟨m2, hm2⟩, he2⟩ := ih s h
      refine ⟨?_, ⟨m1 ++ m2, ?_⟩, fun hne => he2 (he hne)⟩
      · rw [hi2, hi]
        cases hs : isSentinel l
        · simp [rowIndex, dataRows, hs]
          omega
        · simp [rowIndex, dataRows, hs]
      · rw [hm2, hm1, List.append_assoc]

/-- No line panics while the row index stays within the twelve summary slots. -/
theorem scanFrom_total_early (env : Deps F E) (st : LoopState F E) (lines : List String)
    (h : st.i + rowIndex lines ≤ 12) : ∃ st1, scanFrom env st lines = some st1 := by
  induction lines generalizing st with
  | nil => exact ⟨st, rfl⟩
  | cons l lines ih =>
    rw [scanFrom]
    cases hs : isSentinel l with
    | true =>
      rw [step_sentinel env st l hs]
      apply ih
      simpa [rowIndex, dataRows, hs] using h
    | false =>
      have hlen : rowIndex (l :: lines) = rowIndex lines + 1 := by simp [rowIndex, dataRows, hs]
      rw [hlen] at h
      have hi : st.i ≤ 11 := by omega
      cases hna : Contains (Split l) "N/A" with
      | true =>
        rw [step_na env st l hna]
        apply ih
        simp only
        omega
      | false =>
        by_cases h8 : (Split l).length = 8
        · obtain ⟨sp, _, hstep⟩ := step_summary env st l h8 hna hi
          rw [hstep]
          apply ih
          simp only
          omega
        · rw [step_drop env st l hs h8 hna hi]
          apply ih
          simp only
          omega

/-! ## Well-formed input (C1) -/

theorem convErrs_eq_nil (env : Deps F E) (fields : List String)
    (h : ∀ f ∈ fields, (env.TrimParseUnsafeFloat64 f).2 = none) : convErrs env fields = [] := by
  induction fields with
  | nil => rfl
  | cons f fields ih =>
    have hf := h f (List.mem_cons_self _ _)
    have := ih (fun g hg => h g (List.mem_cons_of_mem _ hg))
    simp only [convErrs] at this ⊢
    simp [List.filterMap_cons, hf, this]

theorem noteRowErr_none (m : Option (List E)) : noteRowErr m (ofErrList []) = m := by
  simp [noteRowErr, ofErrList]

/-- Summary rows in the first twelve slots: one record each, in order, no error. -/
theorem scanFrom_summaryRows (env : Deps F E) (rows : List String) (st : LoopState F E)
    (hfit : st.i + rows.length ≤ 12) (hgood : ∀ r ∈ rows, goodSummaryRow env r) :
    ∃ recs, scanFrom env st rows
        = some { i := st.i + rows.length, res := st.res ++ recs, merr := st.merr } ∧
      recs.map some = (rows.enumFrom st.i).map (fun p => rowRecord env p.1 p.2) := by
  induction rows generalizing st with
  | nil => exact ⟨[], by simp [scanFrom], by simp⟩
  | cons r rows ih =>
    obtain ⟨h8, hna, hconv⟩ := hgood r (List.mem_cons_self _ _)
    simp only [List.length_cons] at hfit
    obtain ⟨sp, hsp, hstep⟩ := step_summary env st r h8 hna (by omega)
    rw [convErrs_eq_nil env _ hconv, noteRowErr_none] at hstep
    obtain ⟨recs, hscan, hrecs⟩ := ih { i := st.i + 1, res := st.res ++ [sp], merr := st.merr }
      (by simp only; omega) (fun g hg => hgood g (List.mem_cons_of_mem _ hg))
    refine ⟨sp :: recs, ?_, ?_⟩
    · rw [scanFrom, hstep]
      simp only at hscan ⊢
      rw [hscan]
      simp only [List.length_cons, List.append_assoc, List.singleton_append]
      congr 2
      omega
    · simp only at hrecs
      simp [List.enumFrom_cons, rowRecord, h8, hsp, hrecs]

/-- Time-series rows after the twelve slots: one record each, in order, no error. -/
theorem scanFrom_timeSeriesRows (env : Deps F E) (rows : List String) (st : LoopState F E)
    (hlate : 11 < st.i) (hgood : ∀ r ∈ rows, goodTimeSeriesRow env r) :
    ∃ recs, scanFrom env st rows
        = some { i := st.i + rows.length, res := st.res ++ recs, merr := st.merr } ∧
      recs.map some = (rows.enumFrom st.i).map (fun p => rowRecord env p.1 p.2) := by
  induction rows generalizing st with
  | nil => exact ⟨[], by simp [scanFrom], by simp⟩
  | cons r rows ih =>
    obtain ⟨h9, hna, hstamp, hconv⟩ := hgood r (List.mem_cons_self _ _)
    obtain ⟨sp, hsp, hstep⟩ := step_timeSeries env st r (by omega) hna hlate
    have hnil : stampErrs env ((Split r).headD "") ++ convErrs env (((Split r).tail).take 8)
        = [] := by
      have h1 : convErrs env (((Split r).tail).take 8) = [] :=
        convErrs_eq_nil env _ (fun f hf => hconv f (List.mem_of_mem_take hf))
      have h2 : stampErrs env ((Split r).headD "") = [] := by
        match hl : Split r, h9 with
        | f0 :: _, _ =>
          rw [hl] at hstamp
          have := hstamp f0 (by simp)
          unfold stampErrs
          simp only [List.headD_cons]
          cases hp : timeParse (TrimSpace f0) with
          | none => rw [hp] at this; cases this
          | some t => rfl
      rw [h1, h2]
      rfl
    rw [hnil, noteRowErr_none] at hstep
    obtain ⟨recs, hscan, hrecs⟩ := ih { i := st.i + 1, res := st.res ++ [sp], merr := st.merr }
      (by simp only; omega) (fun g hg => hgood g (List.mem_cons_of_mem _ hg))
    refine ⟨sp :: recs, ?_, ?_⟩
    · rw [scanFrom, hstep]
      simp only at hscan ⊢
      rw [hscan]
      simp only [List.length_cons, List.append_assoc, List.singleton_append]
      congr 2
      omega
    · simp only at hrecs
      have h8 : (Split r).length ≠ 8 := by omega
      simp [List.enumFrom_cons, rowRecord, h8, hsp, hrecs]

/-- C1: on an input made of sentinel lines, exactly twelve 8-field rows and then `k` 9-field
rows, without an `N/A` field and with every numeric field and timestamp converting,
`StorageProvisionings` returns success with exactly `12 + k` records, and the `j`-th record
is the one built from the `j`-th row (the output is in input order). -/
theorem storageProvisionings_wellFormed (env : Deps F E) (lines summ ts : List String)
    (hrows : dataRows lines = summ ++ ts) (h12 : summ.length = 12)
    (hsumm : ∀ r ∈ summ, goodSummaryRow env r) (hts : ∀ r ∈ ts, goodTimeSeriesRow env r) :
    ∃ recs, StorageProvisionings env lines = some { records := some recs, err := none } ∧
      recs.length = 12 + ts.length ∧
      recs.map some = (dataRows lines).enum.map (fun p => rowRecord env p.1 p.2) := by
  obtain ⟨recs1, hscan1, hrecs1⟩ := scanFrom_summaryRows env summ LoopState.init
    (by simp [LoopState.init, h12]) hsumm
  obtain ⟨recs2, hscan2, hrecs2⟩ := scanFrom_timeSeriesRows env ts
    { i := LoopState.init.i + summ.length, res := LoopState.init.res ++ recs1,
      merr := (LoopState.init : LoopState F E).merr }
    (by simp [LoopState.init, h12]) hts
  have hscan : scan env lines = some
      { i := 12 + ts.length, res := recs1 ++ recs2, merr := none } := by
    rw [scan, scanFrom_dataRows, hrows, scanFrom_append, hscan1, Option.some_bind, hscan2]
    simp [LoopState.init, h12]
  have hmap : (recs1 ++ recs2).map some
      = (dataRows lines).enum.map (fun p => rowRecord env p.1 p.2) := by
    rw [hrows, List.map_append, hrecs1, hrecs2, List.enum, List.enumFrom_append,
      List.map_append]
    simp [LoopState.init]
  refine ⟨recs1 ++ recs2, ?_, ?_, hmap⟩
  · simp [StorageProvisionings, hscan, finish]
  · have := congrArg List.length hmap
    simp only [List.length_map, List.enum_length, hrows, List.length_append, h12] at this
    simpa using this

set_option maxRecDepth 100000 in
/-- Witness of C1: the sample input of twelve summary rows and two time-series rows. -/
theorem storageProvisionings_wellFormed_witness :
    (dataRows sampleLines = sampleSummaryRows ++ sampleTimeSeriesRows ∧
      sampleSummaryRows.length = 12 ∧
      (∀ r ∈ sampleSummaryRows, goodSummaryRow sampleDeps r) ∧
      (∀ r ∈ sampleTimeSeriesRows, goodTimeSeriesRow sampleDeps r)) ∧
    ∃ recs, StorageProvisionings sampleDeps sampleLines
        = some { records := some recs, err := none } ∧
      recs.length = 12 + sampleTimeSeriesRows.length ∧
      recs.map some = (dataRows sampleLines).enum.map (fun p => rowRecord sampleDeps p.1 p.2) :=
  ⟨⟨by decide, by decide, by decide, by decide⟩,
    storageProvisionings_wellFormed sampleDeps sampleLines sampleSummaryRows
      sampleTimeSeriesRows (by decide) (by decide) (by decide) (by decide)⟩

/-! ## The window table (C2) -/

theorem switchWindow_table (T : Time) (i : Nat) (h : i ≤ 11) :
    (windowTable T)[i]? = some (switchWindow T i) := by
  interval_cases i <;> rfl

theorem summaryRecord_window (env : Deps F E) (j : Nat) (row : String)
    (sp : StorageProvisioning F) (h : summaryRecord env j row = some sp) :
    (sp.TimeStart, sp.TimeEnd) = switchWindow env.currentTime j := by
  unfold summaryRecord at h
  cases hp : parseValues env (Split row) with
  | none => rw [hp] at h; cases h
  | some p =>
    rw [hp] at h
    simp only [Option.map_some', Option.some.injEq] at h
    subst h
    rfl

/-- An 8-field row met in a state whose index is at most 11, possibly after sentinel
lines: one record is appended and its window is the table entry of that index. -/
theorem scanFrom_summary_after (env : Deps F E) (st : LoopState F E)
    (sents : List String) (next : String) (hsents : ∀ s ∈ sents, isSentinel s = true)
    (h8 : (Split next).length = 8) (hna : Contains (Split next) "N/A" = false)
    (hi : st.i ≤ 11) :
    ∃ sp, scanFrom env st (sents ++ [next]) = some
        { i := st.i + 1, res := st.res ++ [sp],
          merr := noteRowErr st.merr (ofErrList (convErrs env (Split next))) } ∧
      (windowTable env.currentTime)[st.i]? = some (sp.TimeStart, sp.TimeEnd) := by
  obtain ⟨sp, hsp, hstep⟩ := step_summary env st next h8 hna hi
  refine ⟨sp, ?_, ?_⟩
  · have hd : dataRows (sents ++ [next]) = [next] := by
      have h1 : dataRows sents = [] := by
        simp only [dataRows, List.filter_eq_nil_iff]
        intro s hs
        simp [hsents s hs]
      have h2 : isSentinel next = false := not_sentinel_of_length next (by omega)
      rw [dataRows_append, h1]
      simp [dataRows, h2]
    rw [scanFrom_dataRows, hd, scanFrom, hstep]
    rfl
  · rw [switchWindow_table _ _ hi, summaryRecord_window env st.i next sp hsp]

/-- The record appended by a line stays at its position in the records returned. -/
theorem record_kept (env : Deps F E) (st : LoopState F E) (sp : StorageProvisioning F)
    (i : Nat) (m : Option (List E)) (pre post : List String)
    (recs : List (StorageProvisioning F))
    (hpre : scan env pre = some { i := i, res := st.res ++ [sp], merr := m })
    (hres : StorageProvisionings env (pre ++ post) = some { records := some recs, err := none }) :
    recs[st.res.length]? = some sp := by
  unfold StorageProvisionings scan at hres
  unfold scan at hpre
  rw [scanFrom_append, hpre, Option.some_bind] at hres
  cases hfin : scanFrom env { i := i, res := st.res ++ [sp], merr := m } post with
  | none => rw [hfin] at hres; cases hres
  | some fin =>
    rw [hfin] at hres
    obtain ⟨_, ⟨more, hmore⟩, _⟩ := scanFrom_effect env _ fin post hfin
    simp only [Option.map_some', Option.some.injEq] at hres
    unfold finish at hres
    cases hm : fin.merr with
    | some es => rw [hm] at hres; cases hres
    | none =>
      rw [hm] at hres
      simp only [Result.mk.injEq, Option.some.injEq, and_true] at hres
      rw [← hres, hmore]
      simp only [List.append_assoc, List.singleton_append]
      rw [List.getElem?_append_right (Nat.le_refl _)]
      simp

theorem scan_snoc (env : Deps F E) (pre : List String) (row : String) (st : LoopState F E)
    (hpre : scan env pre = some st) (rest : List String) :
    scan env (pre ++ row :: rest) = (step env st row).bind (fun s => scanFrom env s rest) := by
  unfold scan at hpre ⊢
  rw [scanFrom_append, hpre, Option.some_bind, scanFrom]
  cases step env st row <;> rfl

theorem scan_index (env : Deps F E) (pre : List String) (st : LoopState F E)
    (hpre : scan env pre = some st) : st.i = rowIndex pre := by
  have := (scanFrom_effect env _ st pre hpre).1
  simpa [LoopState.init] using this

theorem scan_total_early (env : Deps F E) (pre : List String) (h : rowIndex pre ≤ 12) :
    ∃ st, scan env pre = some st :=
  scanFrom_total_early env LoopState.init pre (by simpa [LoopState.init] using h)

/-- C2: for every index `i` in 0..11, an 8-field row without an `N/A` field that is the
`i`-th non-sentinel line of the input yields a record whose (TimeStart, TimeEnd) is exactly
entry `i` of the window table relative to the captured instant `T`
(0:(T-30d,T), 1:(T-7d,T), 2:(T-14d,T-8d), 3:(T-21d,T-15d), 4:(T-28d,T-22d), 5:(T,absent),
6:(T-1d,T), 7:(T-2d,T-1d), 8:(T-3d,T-2d), 9:(T-4d,T-3d), 10:(T-5d,T-4d), 11:(T-6d,T-5d));
the loop reaches the row, appends that record, and the record is the one returned at that
position whenever the call succeeds. -/
theorem summaryRow_window (env : Deps F E) (pre : List String) (row : String) (i : Nat)
    (hidx : rowIndex pre = i) (hi : i ≤ 11)
    (h8 : (Split row).length = 8) (hna : Contains (Split row) "N/A" = false) :
    ∃ st sp, scan env pre = some st ∧
      scan env (pre ++ [row]) = some
        { i := i + 1, res := st.res ++ [sp],
          merr := noteRowErr st.merr (ofErrList (convErrs env (Split row))) } ∧
      (windowTable env.currentTime)[i]? = some (sp.TimeStart, sp.TimeEnd) ∧
      ∀ post recs, StorageProvisionings env (pre ++ row :: post)
          = some { records := some recs, err := none } → recs[st.res.length]? = some sp := by
  obtain ⟨st, hst⟩ := scan_total_early env pre (by omega)
  have hsti : st.i = i := by rw [scan_index env pre st hst, hidx]
  obtain ⟨sp, hscan, hwin⟩ := scanFrom_summary_after env st [] row (by simp) h8 hna (by omega)
  have hfull : scan env (pre ++ [row]) = some
      { i := i + 1, res := st.res ++ [sp],
        merr := noteRowErr st.merr (ofErrList (convErrs env (Split row))) } := by
    unfold scan at hst ⊢
    rw [scanFrom_append, hst, Option.some_bind]
    simpa [hsti] using hscan
  refine ⟨st, sp, hst, hfull, by rw [← hsti]; exact hwin, ?_⟩
  intro post recs hres
  have : pre ++ row :: post = (pre ++ [row]) ++ post := by simp
  rw [this] at hres
  exact record_kept env st sp _ _ _ post recs hfull hres

set_option maxRecDepth 100000 in
/-- Witness of C2: the row `10.5|||...|||2.2` as second row, after a sentinel line. -/
theorem summaryRow_window_witness :
    (rowIndex ["BEGINOUTPUT", "1|||2|||3|||4|||5|||6|||7|||8"] = 1 ∧ 1 ≤ 11 ∧
      (Split "10.5|||20.1|||5.0|||9.9|||100.0|||200.0|||1.1|||2.2").length = 8 ∧
      Contains (Split "10.5|||20.1|||5.0|||9.9|||100.0|||200.0|||1.1|||2.2") "N/A" = false) ∧
    ∃ st sp, scan sampleDeps ["BEGINOUTPUT", "1|||2|||3|||4|||5|||6|||7|||8"] = some st ∧
      scan sampleDeps (["BEGINOUTPUT", "1|||2|||3|||4|||5|||6|||7|||8"] ++
          ["10.5|||20.1|||5.0|||9.9|||100.0|||200.0|||1.1|||2.2"]) = some
        { i := 1 + 1, res := st.res ++ [sp],
          merr := noteRowErr st.merr (ofErrList (convErrs sampleDeps
            (Split "10.5|||20.1|||5.0|||9.9|||100.0|||200.0|||1.1|||2.2"))) } ∧
      (windowTable sampleDeps.currentTime)[1]? = some (sp.TimeStart, sp.TimeEnd) ∧
      ∀ post recs, StorageProvisionings sampleDeps
          (["BEGINOUTPUT", "1|||2|||3|||4|||5|||6|||7|||8"] ++
            "10.5|||20.1|||5.0|||9.9|||100.0|||200.0|||1.1|||2.2" :: post)
          = some { records := some recs, err := none } → recs[st.res.length]? = some sp :=
  ⟨⟨by decide, by decide, by decide, by decide⟩,
    summaryRow_window sampleDeps ["BEGINOUTPUT", "1|||2|||3|||4|||5|||6|||7|||8"]
      "10.5|||20.1|||5.0|||9.9|||100.0|||200.0|||1.1|||2.2" 1
      (by decide) (by decide) (by decide) (by decide)⟩

/-! ## Rows that are skipped or dropped (C3, C10) -/

/-- A row that leaves records and error as they are and advances the index: the next
8-field row (sentinel lines may stand in between) gets the window of the next index. -/
theorem next_summary_shifted (env : Deps F E) (pre : List String) (row : String)
    (st : LoopState F E) (hpre : scan env pre = some st)
    (hstep : step env st row = some { st with i := st.i + 1 })
    (sents : List String) (next : String) (hsents : ∀ s ∈ sents, isSentinel s = true)
    (h8 : (Split next).length = 8) (hna : Contains (Split next) "N/A" = false)
    (hi : rowIndex pre + 1 ≤ 11) :
    ∃ sp, scan env (pre ++ row :: (sents ++ [next])) = some
        { i := rowIndex pre + 2, res := st.res ++ [sp],
          merr := noteRowErr st.merr (ofErrList (convErrs env (Split next))) } ∧
      (windowTable env.currentTime)[rowIndex pre + 1]? = some (sp.TimeStart, sp.TimeEnd) := by
  have hsti := scan_index env pre st hpre
  obtain ⟨sp, hscan, hwin⟩ := scanFrom_summary_after env { st with i := st.i + 1 } sents next
    hsents h8 hna (by simp only; omega)
  refine ⟨sp, ?_, ?_⟩
  · rw [scan_snoc env pre row st hpre, hstep, Option.some_bind, hscan, hsti]
  · simpa [hsti] using hwin

/-- C3: a row in which some field is exactly `N/A` contributes no record and no error, but
consumes one index slot: the loop state after it differs only by the index, which is one
more; so the next 8-field row is assigned the window of the index one greater than the
index of the skipped row. -/
theorem naRow_skipped (env : Deps F E) (pre : List String) (row : String)
    (st : LoopState F E) (hpre : scan env pre = some st)
    (hrow : Contains (Split row) "N/A" = true) :
    st.i = rowIndex pre ∧
    scan env (pre ++ [row]) = some { i := rowIndex pre + 1, res := st.res, merr := st.merr } ∧
    ∀ sents next, (∀ s ∈ sents, isSentinel s = true) → (Split next).length = 8 →
      Contains (Split next) "N/A" = false → rowIndex pre + 1 ≤ 11 →
      ∃ sp, scan env (pre ++ row :: (sents ++ [next])) = some
          { i := rowIndex pre + 2, res := st.res ++ [sp],
            merr := noteRowErr st.merr (ofErrList (convErrs env (Split next))) } ∧
        (windowTable env.currentTime)[rowIndex pre + 1]? = some (sp.TimeStart, sp.TimeEnd) := by
  have hsti := scan_index env pre st hpre
  have hstep := step_na env st row hrow
  refine ⟨hsti, ?_, ?_⟩
  · rw [scan_snoc env pre row st hpre, hstep, Option.some_bind, scanFrom, hsti]
  · intro sents next hsents h8 hna hi
    exact next_summary_shifted env pre row st hpre hstep sents next hsents h8 hna hi

set_option maxRecDepth 100000 in
/-- Witness of C3: an `N/A` row at index 0 followed by an 8-field row, which gets the
window of index 1, `T-7d .. T`. -/
theorem naRow_skipped_witness :
    (scan sampleDeps [] = some LoopState.init ∧
      Contains (Split "N/A|||N/A|||3|||4|||5|||6|||7|||8") "N/A" = true) ∧
    ∃ sp, scan sampleDeps ([] ++ "N/A|||N/A|||3|||4|||5|||6|||7|||8" ::
          ([] ++ ["1|||2|||3|||4|||5|||6|||7|||8"])) = some
        { i := 2, res := [sp], merr := none } ∧
      (sp.TimeStart, sp.TimeEnd)
        = (some (sampleNow.AddDate 0 0 (-7)), some sampleNow) :=
  ⟨⟨rfl, by decide⟩, by
    obtain ⟨sp, h1, h2⟩ := (naRow_skipped sampleDeps [] "N/A|||N/A|||3|||4|||5|||6|||7|||8"
      LoopState.init rfl (by decide)).2.2 [] "1|||2|||3|||4|||5|||6|||7|||8"
      (by simp) (by decide) (by decide) (by decide)
    refine ⟨sp, ?_, ?_⟩
    · rw [h1]
      rfl
    · have h3 : (windowTable sampleDeps.currentTime)[rowIndex [] + 1]?
          = some (some (sampleNow.AddDate 0 0 (-7)), some sampleNow) := rfl
      rw [h3] at h2
      exact (Option.some.inj h2).symm⟩

/-- C10: a non-sentinel row without an `N/A` field whose field count is not 8 and whose
row index is at most 11 produces no record and no error, whatever its fields contain, yet
it advances the row index by one; so the window of a later 8-field row is the one of the
shifted index. -/
theorem malformedRow_dropped (env : Deps F E) (pre : List String) (row : String)
    (hs : isSentinel row = false) (hna : Contains (Split row) "N/A" = false)
    (hlen : (Split row).length ≠ 8) (hi : rowIndex pre ≤ 11) :
    ∃ st, scan env pre = some st ∧ st.i = rowIndex pre ∧
      scan env (pre ++ [row]) = some { i := rowIndex pre + 1, res := st.res, merr := st.merr } ∧
      ∀ sents next, (∀ s ∈ sents, isSentinel s = true) → (Split next).length = 8 →
        Contains (Split next) "N/A" = false → rowIndex pre + 1 ≤ 11 →
        ∃ sp, scan env (pre ++ row :: (sents ++ [next])) = some
            { i := rowIndex pre + 2, res := st.res ++ [sp],
              merr := noteRowErr st.merr (ofErrList (convErrs env (Split next))) } ∧
          (windowTable env.currentTime)[rowIndex pre + 1]?
            = some (sp.TimeStart, sp.TimeEnd) := by
  obtain ⟨st, hpre⟩ := scan_total_early env pre (by omega)
  have hsti := scan_index env pre st hpre
  have hstep := step_drop env st row hs hlen hna (by omega)
  refine ⟨st, hpre, hsti, ?_, ?_⟩
  · rw [scan_snoc env pre row st hpre, hstep, Option.some_bind, scanFrom, hsti]
  · intro sents next hsents h8 hna2 hi2
    exact next_summary_shifted env pre row st hpre hstep sents next hsents h8 hna2 hi2

set_option maxRecDepth 100000 in
/-- Witness of C10: an empty line and a line of non-numeric text with three fields, each as
first row, are dropped and take the slot of index 0. -/
theorem malformedRow_dropped_witness :
    (isSentinel "" = false ∧ Contains (Split "") "N/A" = false ∧ (Split "").length ≠ 8 ∧
      rowIndex ["BEGINOUTPUT"] ≤ 11) ∧
    (∃ st, scan sampleDeps ["BEGINOUTPUT"] = some st ∧ st.i = rowIndex ["BEGINOUTPUT"] ∧
      scan sampleDeps (["BEGINOUTPUT"] ++ [""]) = some
        { i := rowIndex ["BEGINOUTPUT"] + 1, res := st.res, merr := st.merr }) ∧
    (∃ st, scan sampleDeps ["BEGINOUTPUT"] = some st ∧ st.i = rowIndex ["BEGINOUTPUT"] ∧
      scan sampleDeps (["BEGINOUTPUT"] ++ ["abc|||x y|||?"]) = some
        { i := rowIndex ["BEGINOUTPUT"] + 1, res := st.res, merr := st.merr }) :=
  ⟨⟨by decide, by decide, by decide, by decide⟩,
    (let ⟨st, h1, h2, h3, _⟩ := malformedRow_dropped sampleDeps ["BEGINOUTPUT"] ""
      (by decide) (by decide) (by decide) (by decide)
     ⟨st, h1, h2, h3⟩),
    (let ⟨st, h1, h2, h3, _⟩ := malformedRow_dropped sampleDeps ["BEGINOUTPUT"] "abc|||x y|||?"
      (by decide) (by decide) (by decide) (by decide)
     ⟨st, h1, h2, h3⟩)⟩

/-! ## All or nothing (C4) -/

theorem step_errs (env : Deps F E) (st st1 : LoopState F E) (line : String) (l : List E)
    (h : step env st line = some st1) (hm : st.merr = ofErrList l) :
    st1.merr = ofErrList (l ++ rowErrs env st.i line) := by
  cases hs : isSentinel line with
  | true =>
    rw [step_sentinel env st line hs] at h
    cases h
    simp [rowErrs, hs, hm]
  | false =>
    cases hna : Contains (Split line) "N/A" with
    | true =>
      rw [step_na env st line hna] at h
      cases h
      simp [rowErrs, hna, hm]
    | false =>
      by_cases hi : st.i ≤ 11
      · have hi2 : ¬ 11 < st.i := by omega
        by_cases h8 : (Split line).length = 8
        · obtain ⟨sp, _, hstep⟩ := step_summary env st line h8 hna hi
          rw [hstep] at h
          cases h
          simp [rowErrs, hs, hna, h8, hi2, hm, noteRowErr_ofErrList]
        · rw [step_drop env st line hs h8 hna hi] at h
          cases h
          simp [rowErrs, hs, hna, h8, hi2, hm]
      · have hi2 : 11 < st.i := by omega
        by_cases h9 : 9 ≤ (Split line).length
        · obtain ⟨sp, _, hstep⟩ := step_timeSeries env st line h9 hna hi2
          have h8 : (Split line).length ≠ 8 := by omega
          rw [hstep] at h
          cases h
          simp [rowErrs, hs, hna, h8, hi2, hm, noteRowErr_ofErrList]
        · rw [step_short_late env st line hs (by omega) hna hi2] at h
          cases h

/-- The error of the loop holds exactly the errors of the conversions attempted so far. -/
theorem scanFrom_errs (env : Deps F E) (st st1 : LoopState F E) (lines : List String)
    (l : List E) (h : scanFrom env st lines = some st1) (hm : st.merr = ofErrList l) :
    st1.merr = ofErrList (l ++ errsFrom env st.i lines) := by
  induction lines generalizing st l with
  | nil =>
    simp only [scanFrom, Option.some.injEq] at h
    subst h
    simp [errsFrom, hm]
  | cons line lines ih =>
    rw [scanFrom] at h
    cases hstep : step env st line with
    | none => rw [hstep] at h; cases h
    | some s =>
      rw [hstep] at h
      have h1 := step_errs env st s line l hstep hm
      have h2 := ih s _ h h1
      have hi := (step_effect env st s line hstep).1
      rw [h2, hi, errsFrom, List.append_assoc]

theorem errsFrom_append (env : Deps F E) (i : Nat) (a b : List String) :
    errsFrom env i (a ++ b) = errsFrom env i a ++ errsFrom env (i + rowIndex a) b := by
  induction a generalizing i with
  | nil => simp [errsFrom, rowIndex, dataRows]
  | cons l a ih =>
    have hr : rowIndex (l :: a) = (if isSentinel l then 0 else 1) + rowIndex a := by
      cases hs : isSentinel l <;> simp [rowIndex, dataRows, hs, Nat.add_comm]
    rw [List.cons_append, errsFrom, errsFrom, ih, hr, List.append_assoc, Nat.add_assoc]

theorem convErrs_ne_nil (env : Deps F E) (fields : List String)
    (h : ∃ f ∈ fields, (env.TrimParseUnsafeFloat64 f).2 ≠ none) : convErrs env fields ≠ [] := by
  obtain ⟨f, hf, hne⟩ := h
  intro hnil
  have hmem : ∀ e, e ∉ convErrs env fields := by simp [hnil]
  cases he : (env.TrimParseUnsafeFloat64 f).2 with
  | none => exact hne he
  | some e =>
    apply hmem (env.NewError e)
    simp only [convErrs, List.mem_filterMap]
    exact ⟨f, hf, by simp [he]⟩

theorem rowErrs_ne_nil (env : Deps F E) (i : Nat) (row : String)
    (hs : isSentinel row = false) (hna : Contains (Split row) "N/A" = false)
    (hfail : conversionFails env i row) : rowErrs env i row ≠ [] := by
  rcases hfail with ⟨h8, hf⟩ | ⟨hi, hf⟩
  · have := convErrs_ne_nil env _ hf
    simp [rowErrs, hs, hna, h8, this]
  · have : stampErrs env ((Split row).headD "") ++ convErrs env (((Split row).tail).take 8)
        ≠ [] := by
      rcases hf with ht | hf
      · unfold stampErrs
        rw [ht]
        simp
      · have := convErrs_ne_nil env _ hf
        simp [this]
    simp only [rowErrs, hs, hna, hi, Bool.false_eq_true, or_self, if_false, if_true]
    intro hnil
    exact this (List.append_eq_nil.1 hnil).2

/-- The result of the call, from the errors of its conversions. -/
theorem storageProvisionings_err (env : Deps F E) (lines : List String) (out : Result F E)
    (hret : StorageProvisionings env lines = some out) :
    out.err = ofErrList (errsFrom env 0 lines) ∧
      (out.err ≠ none → out.records = none) := by
  unfold StorageProvisionings at hret
  cases hscan : scan env lines with
  | none => rw [hscan] at hret; cases hret
  | some st =>
    rw [hscan] at hret
    simp only [Option.map_some', Option.some.injEq] at hret
    have hm := scanFrom_errs env LoopState.init st lines [] hscan (by simp [LoopState.init, ofErrList])
    simp only [List.nil_append, LoopState.init] at hm
    subst hret
    unfold finish
    cases hst : st.merr with
    | none => simp [← hm, hst]
    | some es => simp [← hm, hst]

/-- C4: on every input on which `StorageProvisionings` returns, if a conversion attempted
on some row fails (a numeric field of an 8-field row; the timestamp or a numeric field of a
time-series row), the call returns a failure and a nil record list, whatever the other rows
are. -/
theorem failure_discards_all (env : Deps F E) (lines : List String) (out : Result F E)
    (hret : StorageProvisionings env lines = some out)
    (pre : List String) (row : String) (post : List String)
    (hsplit : lines = pre ++ row :: post) (hs : isSentinel row = false)
    (hna : Contains (Split row) "N/A" = false)
    (hfail : conversionFails env (rowIndex pre) row) :
    out.records = none ∧ ∃ es, out.err = some es ∧ es ≠ [] := by
  obtain ⟨herr, hrec⟩ := storageProvisionings_err env lines out hret
  have hne : errsFrom env 0 lines ≠ [] := by
    rw [hsplit, errsFrom_append, errsFrom]
    have := rowErrs_ne_nil env (rowIndex pre) row hs hna hfail
    simp [this]
  have hsome : out.err = some (errsFrom env 0 lines) := by
    rw [herr]
    unfold ofErrList
    cases hl : errsFrom env 0 lines with
    | nil => exact absurd hl hne
    | cons a l => rfl
  exact ⟨hrec (by simp [hsome]), _, hsome, hne⟩

set_option maxRecDepth 100000 in
/-- Witness of C4: twelve 8-field rows, row 3 with the text `abc` in field 2; the call
returns a failure with one error and no record. -/
theorem failure_discards_all_witness :
    StorageProvisionings sampleDeps sampleBadRows
        = some { records := none, err := some ["not a number: abc"] } ∧
      sampleBadRows = sampleBadRows.take 3 ++ "1|||2|||abc|||4|||5|||6|||7|||8" ::
        sampleBadRows.drop 4 ∧
      conversionFails sampleDeps (rowIndex (sampleBadRows.take 3))
        "1|||2|||abc|||4|||5|||6|||7|||8" ∧
      (({ records := none, err := some ["not a number: abc"] } :
          Result Decimal String).records = none ∧
        ∃ es, ({ records := none, err := some ["not a number: abc"] } :
          Result Decimal String).err = some es ∧ es ≠ []) :=
  have hret : StorageProvisionings sampleDeps sampleBadRows
      = some { records := none, err := some ["not a number: abc"] } := by decide
  have hsplit : sampleBadRows = sampleBadRows.take 3 ++ "1|||2|||abc|||4|||5|||6|||7|||8" ::
      sampleBadRows.drop 4 := by decide
  have hfail : conversionFails sampleDeps (rowIndex (sampleBadRows.take 3))
      "1|||2|||abc|||4|||5|||6|||7|||8" :=
    Or.inl ⟨by decide, "abc", by decide, by decide⟩
  ⟨hret, hsplit, hfail,
    failure_discards_all sampleDeps sampleBadRows _ hret (sampleBadRows.take 3)
      "1|||2|||abc|||4|||5|||6|||7|||8" (sampleBadRows.drop 4) hsplit (by decide) (by decide)
      hfail⟩

/-! ## Field order and round trip (C5) -/

theorem splitBars_cons_ne (acc : List Char) (a : Char) (l : List Char) (ha : a ≠ '|') :
    splitBars acc (a :: l) = splitBars (a :: acc) l := by
  match l with
  | [] => simp [splitBars]
  | [b] => simp [splitBars]
  | b :: c :: rest => simp [splitBars, ha]

theorem splitBars_plain (s acc : List Char) (hs : ∀ c ∈ s, c ≠ '|') :
    splitBars acc s = [acc.reverse ++ s] := by
  induction s generalizing acc with
  | nil => simp [splitBars]
  | cons a s ih =>
    rw [splitBars_cons_ne acc a s (hs a (List.mem_cons_self _ _)),
      ih _ (fun c hc => hs c (List.mem_cons_of_mem _ hc))]
    simp

theorem splitBars_sep (s acc t : List Char) (hs : ∀ c ∈ s, c ≠ '|') :
    splitBars acc (s ++ '|' :: '|' :: '|' :: t) = (acc.reverse ++ s) :: splitBars [] t := by
  induction s generalizing acc with
  | nil => simp [splitBars]
  | cons a s ih =>
    rw [List.cons_append, splitBars_cons_ne acc a _ (hs a (List.mem_cons_self _ _)),
      ih _ (fun c hc => hs c (List.mem_cons_of_mem _ hc))]
    simp

theorem splitBars_joinBars (fs : List (List Char)) (hne : fs ≠ [])
    (hfs : ∀ f ∈ fs, ∀ c ∈ f, c ≠ '|') : splitBars [] (joinBars fs) = fs := by
  match fs, hne with
  | [f], _ =>
    rw [joinBars, splitBars_plain f [] (hfs f (by simp))]
    simp
  | f :: g :: rest, _ =>
    rw [joinBars, splitBars_sep f [] _ (hfs f (by simp)),
      splitBars_joinBars (g :: rest) (by simp) (fun x hx => hfs x (List.mem_cons_of_mem _ hx))]
    simp

/-- Splitting a serialised row gives back its fields. -/
theorem Split_Join (fs : List String) (hne : fs ≠ [])
    (hfs : ∀ f ∈ fs, ∀ c ∈ f.data, c ≠ '|') : Split (Join fs) = fs := by
  unfold Split Join
  rw [splitBars_joinBars (fs.map String.data) (by simpa using hne)
    (by
      intro f hf
      obtain ⟨g, hg, rfl⟩ := List.mem_map.1 hf
      exact hfs g hg)]
  rw [List.map_map]
  conv_rhs => rw [← List.map_id fs]
  apply List.map_congr_left
  intro f _
  rfl

theorem parseValues_valuesRecord (env : Deps F E) (fs : List String) (h8 : fs.length = 8) :
    parseValues env fs = some (valuesRecord env (none, none) fs, ofErrList (convErrs env fs)) := by
  obtain ⟨a, b, c, d, e, f, g, k, rfl⟩ := length_eq_eight h8
  rw [parseValues_eight]
  rfl

theorem goodFields_row (env : Deps F E) (fs : List String) (h : goodFields env fs) :
    Split (Join fs) = fs ∧ goodSummaryRow env (Join fs) := by
  obtain ⟨h8, hf⟩ := h
  have hne : fs ≠ [] := by
    intro hnil
    rw [hnil] at h8
    cases h8
  have hsplit := Split_Join fs hne (fun f hfm => (hf f hfm).1)
  refine ⟨hsplit, ?_⟩
  unfold goodSummaryRow
  rw [hsplit]
  refine ⟨h8, ?_, fun f hfm => (hf f hfm).2.2⟩
  simp only [Contains, List.any_eq_false, decide_eq_true_eq]
  intro f hfm heq
  exact (hf f hfm).2.1 heq.symm

/-- The records of a batch of serialised rows, slot by slot of the window table. -/
theorem rowRecords_batch (env : Deps F E) (rows : List (List String)) (i : Nat)
    (hfit : i + rows.length ≤ 12) (hgood : ∀ fs ∈ rows, goodFields env fs) :
    ((rows.map Join).enumFrom i).map (fun p => rowRecord env p.1 p.2)
      = ((rows.zip ((windowTable env.currentTime).drop i)).map
          (fun p => valuesRecord env p.2 p.1)).map some := by
  induction rows generalizing i with
  | nil => simp
  | cons fs rows ih =>
    simp only [List.length_cons] at hfit
    have hi : i ≤ 11 := by omega
    obtain ⟨hsplit, h8, _, _⟩ := goodFields_row env fs (hgood fs (List.mem_cons_self _ _))
    have htab : (windowTable env.currentTime).drop i
        = switchWindow env.currentTime i :: (windowTable env.currentTime).drop (i + 1) := by
      have hlt : i < (windowTable env.currentTime).length := by
        simp only [windowTable, List.length_cons, List.length_nil]
        omega
      rw [List.drop_eq_getElem_cons hlt]
      have := switchWindow_table env.currentTime i hi
      rw [List.getElem?_eq_getElem hlt] at this
      rw [Option.some.inj this]
    have hrec : rowRecord env i (Join fs)
        = some (valuesRecord env (switchWindow env.currentTime i) fs) := by
      rw [hsplit] at h8
      simp only [rowRecord, summaryRecord, hsplit, h8, if_true,
        parseValues_valuesRecord env fs h8, Option.map_some']
      rfl
    rw [htab]
    simp only [List.map_cons, List.enumFrom_cons, List.zip_cons_cons, hrec]
    rw [← List.map_cons, ih (i + 1) (by omega) (fun g hg => hgood g (List.mem_cons_of_mem _ hg))]
    simp

/-- The part of the round-trip property that the code satisfies: for every 8-element field
list, `parseValues` returns a record whose CpuDbAvg, CpuDbMax, CpuHostAvg, CpuHostMax,
IopsAvg, IopsMax, IombAvg, IombMax are the results of the numeric primitive on the fields
0, 1, 2, 3, 4, 5, 6, 7 in that order; and a batch of at most twelve 8-field rows (one per
slot of the window table) serialised with the `|||` delimiter between the sentinel lines
parses back to the records that carry exactly the converted values, each with the window
of its slot. -/
theorem parseValues_roundTrip (env : Deps F E) (rows : List (List String))
    (hlen : rows.length ≤ 12) (hgood : ∀ fs ∈ rows, goodFields env fs) :
    (∀ f0 f1 f2 f3 f4 f5 f6 f7 : String, ∃ errs,
      parseValues env [f0, f1, f2, f3, f4, f5, f6, f7]
        = some ({ TimeStart := none, TimeEnd := none,
                  CpuDbAvg := (env.TrimParseUnsafeFloat64 f0).1,
                  CpuDbMax := (env.TrimParseUnsafeFloat64 f1).1,
                  CpuHostAvg := (env.TrimParseUnsafeFloat64 f2).1,
                  CpuHostMax := (env.TrimParseUnsafeFloat64 f3).1,
                  IopsAvg := (env.TrimParseUnsafeFloat64 f4).1,
                  IopsMax := (env.TrimParseUnsafeFloat64 f5).1,
                  IombAvg := (env.TrimParseUnsafeFloat64 f6).1,
                  IombMax := (env.TrimParseUnsafeFloat64 f7).1 }, errs)) ∧
    StorageProvisionings env ("BEGINOUTPUT" :: rows.map Join ++ ["ENDOUTPUT"])
      = some { records := some ((rows.zip (windowTable env.currentTime)).map
                 (fun p => valuesRecord env p.2 p.1)),
               err := none } := by
  refine ⟨fun f0 f1 f2 f3 f4 f5 f6 f7 => ⟨_, parseValues_eight env f0 f1 f2 f3 f4 f5 f6 f7 []⟩, ?_⟩
  have hrowsOK : ∀ r ∈ rows.map Join, goodSummaryRow env r := by
    intro r hr
    obtain ⟨fs, hfs, rfl⟩ := List.mem_map.1 hr
    exact (goodFields_row env fs (hgood fs hfs)).2
  have hdata : dataRows ("BEGINOUTPUT" :: rows.map Join ++ ["ENDOUTPUT"]) = rows.map Join := by
    have h1 : dataRows (rows.map Join) = rows.map Join := by
      simp only [dataRows, List.filter_eq_self]
      intro r hr
      have := not_sentinel_of_length r (by rw [(hrowsOK r hr).1]; decide)
      simp [this]
    have h2 : "BEGINOUTPUT" :: rows.map Join ++ ["ENDOUTPUT"]
        = ["BEGINOUTPUT"] ++ (rows.map Join ++ ["ENDOUTPUT"]) := rfl
    rw [h2, dataRows_append, dataRows_append, h1]
    have h3 : dataRows ["BEGINOUTPUT"] = [] := by decide
    have h4 : dataRows ["ENDOUTPUT"] = [] := by decide
    rw [h3, h4]
    simp
  obtain ⟨recs, hscan, hrecs⟩ := scanFrom_summaryRows env (rows.map Join) LoopState.init
    (by simpa [LoopState.init] using hlen) hrowsOK
  have hbatch := rowRecords_batch env rows 0 (by omega) hgood
  simp only [LoopState.init] at hrecs
  rw [hbatch, List.drop_zero] at hrecs
  have hinj : recs = (rows.zip (windowTable env.currentTime)).map
      (fun p => valuesRecord env p.2 p.1) :=
    List.map_injective_iff.2 (Option.some_injective _) hrecs
  unfold StorageProvisionings scan
  rw [scanFrom_dataRows, hdata, hscan]
  simp [finish, LoopState.init, hinj]

set_option maxRecDepth 100000 in
/-- The example of the specification: the line
`10.5|||20.1|||5.0|||9.9|||100.0|||200.0|||1.1|||2.2` at row
index 1 yields CpuDbAvg = 10.5, CpuDbMax = 20.1, CpuHostAvg = 5.0, CpuHostMax = 9.9,
IopsAvg = 100.0, IopsMax = 200.0, IombAvg = 1.1, IombMax = 2.2 with the window (T-7d, T). -/
theorem parseValues_roundTrip_witness :
    (sampleFieldRows.length ≤ 12 ∧ ∀ fs ∈ sampleFieldRows, goodFields sampleDeps fs) ∧
    StorageProvisionings sampleDeps
        [ "BEGINOUTPUT", "1|||2|||3|||4|||5|||6|||7|||8",
          "10.5|||20.1|||5.0|||9.9|||100.0|||200.0|||1.1|||2.2", "ENDOUTPUT" ]
      = some { records := some
                [ { TimeStart := some (sampleNow.AddDate 0 0 (-30)), TimeEnd := some sampleNow,
                    CpuDbAvg := ⟨false, 1, 0⟩, CpuDbMax := ⟨false, 2, 0⟩,
                    CpuHostAvg := ⟨false, 3, 0⟩, CpuHostMax := ⟨false, 4, 0⟩,
                    IopsAvg := ⟨false, 5, 0⟩, IopsMax := ⟨false, 6, 0⟩,
                    IombAvg := ⟨false, 7, 0⟩, IombMax := ⟨false, 8, 0⟩ },
                  { TimeStart := some (sampleNow.AddDate 0 0 (-7)), TimeEnd := some sampleNow,
                    CpuDbAvg := ⟨false, 105, 1⟩, CpuDbMax := ⟨false, 201, 1⟩,
                    CpuHostAvg := ⟨false, 50, 1⟩, CpuHostMax := ⟨false, 99, 1⟩,
                    IopsAvg := ⟨false, 1000, 1⟩, IopsMax := ⟨false, 2000, 1⟩,
                    IombAvg := ⟨false, 11, 1⟩, IombMax := ⟨false, 22, 1⟩ } ],
               err := none } :=
  ⟨⟨by decide, by decide⟩,
    ((parseValues_roundTrip sampleDeps sampleFieldRows (by decide) (by decide)).2 :)⟩

/-! ## The time-series variant (C6, C7) -/

/-- C6: for every field list with at least nine elements, `parseTimeSeries` returns a
record whose eight metrics CpuDbAvg .. IombMax are the numeric conversions of the fields
1 .. 8 in that order (field 0 is used for the timestamp only), with TimeStart present and
TimeEnd absent, whether or not the timestamp and the metrics parse. -/
theorem parseTimeSeries_fields (env : Deps F E) (f0 f1 f2 f3 f4 f5 f6 f7 f8 : String)
    (rest : List String) :
    ∃ sp errs,
      parseTimeSeries env (f0 :: f1 :: f2 :: f3 :: f4 :: f5 :: f6 :: f7 :: f8 :: rest)
        = some (sp, errs) ∧
      sp.CpuDbAvg = (env.TrimParseUnsafeFloat64 f1).1 ∧
      sp.CpuDbMax = (env.TrimParseUnsafeFloat64 f2).1 ∧
      sp.CpuHostAvg = (env.TrimParseUnsafeFloat64 f3).1 ∧
      sp.CpuHostMax = (env.TrimParseUnsafeFloat64 f4).1 ∧
      sp.IopsAvg = (env.TrimParseUnsafeFloat64 f5).1 ∧
      sp.IopsMax = (env.TrimParseUnsafeFloat64 f6).1 ∧
      sp.IombAvg = (env.TrimParseUnsafeFloat64 f7).1 ∧
      sp.IombMax = (env.TrimParseUnsafeFloat64 f8).1 ∧
      sp.TimeStart = some (timeSeriesStart env f0) ∧ sp.TimeEnd = none :=
  ⟨_, _, parseTimeSeries_nine env f0 f1 f2 f3 f4 f5 f6 f7 f8 rest,
    rfl, rfl, rfl, rfl, rfl, rfl, rfl, rfl, rfl, rfl⟩

theorem norm_inRange (hi lo base : Int) (h0 : 0 ≤ lo) (h1 : lo < base) :
    norm hi lo base = (hi, lo) := by
  unfold norm
  have h2 : ¬ lo < 0 := by omega
  have h3 : ¬ lo ≥ base := by omega
  simp [h2, h3]

/-- The call `time.Date` leaves a date and clock that are in range as they are. -/
theorem Date_inRange (y : Int) (m d hh mi : Nat) (hm1 : 1 ≤ m) (hm2 : m ≤ 12)
    (hd1 : 1 ≤ d) (hd2 : d ≤ daysIn m y) (hh2 : hh < 24) (hmi : mi < 60) :
    Date y m d hh mi 0 0
      = { year := y, month := m, day := d, hour := hh, minute := mi, second := 0,
          nsec := 0 } := by
  unfold Date
  rw [norm_inRange y (m - 1) 12 (by omega) (by omega),
    norm_inRange 0 0 1000000000 (by omega) (by omega)]
  simp only
  rw [norm_inRange mi 0 60 (by omega) (by omega)]
  simp only
  rw [norm_inRange hh mi 60 (by omega) (by omega)]
  simp only
  rw [norm_inRange d hh 24 (by omega) (by omega)]
  simp only
  have hm : ((m : Int) - 1).toNat + 1 = m := by omega
  rw [hm]
  have hn : normDay ((d : Int).natAbs + 1) y m d = (y, m, (d : Int)) := by
    rw [normDay]
    have h1 : ¬ ((d : Int) < 1) := by omega
    have h2 : ¬ ((d : Int) > daysIn m y) := by omega
    simp [h1, h2]
  rw [hn]
  simp

/-- No month is longer in any year than in year 0, a leap year. -/
theorem daysIn_le_yearZero (m : Nat) (y : Int) : daysIn m y ≤ daysIn m 0 := by
  have h0 : isLeap 0 = true := by decide
  unfold daysIn
  rw [h0]
  split
  · split <;> simp
  · exact Nat.le_refl _

/-- A text of two-digit day, month, hour and minute, with a colon before the minute, all
in range, is accepted by `time.Parse` and read in year 0. -/
theorem timeParse_compact (d1 d0 m1 m0 h1 h0 n1 n0 : Char)
    (hd1 : isDigit d1 = true) (hd0 : isDigit d0 = true) (hm1 : isDigit m1 = true)
    (hm0 : isDigit m0 = true) (hh1 : isDigit h1 = true) (hh0 : isDigit h0 = true)
    (hn1 : isDigit n1 = true) (hn0 : isDigit n0 = true)
    (hM1 : 1 ≤ digitVal m1 * 10 + digitVal m0) (hM2 : digitVal m1 * 10 + digitVal m0 ≤ 12)
    (hD1 : 1 ≤ digitVal d1 * 10 + digitVal d0)
    (hD2 : digitVal d1 * 10 + digitVal d0 ≤ daysIn (digitVal m1 * 10 + digitVal m0) 0)
    (hH : digitVal h1 * 10 + digitVal h0 < 24) (hN : digitVal n1 * 10 + digitVal n0 < 60) :
    timeParse (String.mk [d1, d0, m1, m0, h1, h0, ':', n1, n0])
      = some { year := 0, month := digitVal m1 * 10 + digitVal m0,
               day := digitVal d1 * 10 + digitVal d0,
               hour := digitVal h1 * 10 + digitVal h0,
               minute := digitVal n1 * 10 + digitVal n0, second := 0, nsec := 0 } := by
  have hM3 : ¬ (digitVal m1 * 10 + digitVal m0 = 0 ∨ 12 < digitVal m1 * 10 + digitVal m0) := by
    omega
  have hH3 : ¬ (24 ≤ digitVal h1 * 10 + digitVal h0) := by omega
  have hN3 : ¬ (60 ≤ digitVal n1 * 10 + digitVal n0) := by omega
  have hdate := Date_inRange 0 _ _ _ _ hM1 hM2 hD1 hD2 hH hN
  simp [timeParse, getnum, hd1, hd0, hm1, hm0, hh1, hh0, hn1, hn0, hM3, hH3, hN3]
  rw [if_neg (by omega), if_neg (by omega)]
  push_cast at hdate
  rw [hdate]

/-- The part of C7 that the code satisfies: a time-series row whose trimmed field 0 is a
compact timestamp DDMMhh:mm, with a day that exists in that month of the current year,
gets a TimeStart with exactly that day, month, hour and minute, in the current year. -/
theorem timeSeriesStart_compact (env : Deps F E) (f0 : String)
    (d1 d0 m1 m0 h1 h0 n1 n0 : Char)
    (htrim : TrimSpace f0 = String.mk [d1, d0, m1, m0, h1, h0, ':', n1, n0])
    (hd1 : isDigit d1 = true) (hd0 : isDigit d0 = true) (hm1 : isDigit m1 = true)
    (hm0 : isDigit m0 = true) (hh1 : isDigit h1 = true) (hh0 : isDigit h0 = true)
    (hn1 : isDigit n1 = true) (hn0 : isDigit n0 = true)
    (hM1 : 1 ≤ digitVal m1 * 10 + digitVal m0) (hM2 : digitVal m1 * 10 + digitVal m0 ≤ 12)
    (hD1 : 1 ≤ digitVal d1 * 10 + digitVal d0)
    (hD2 : digitVal d1 * 10 + digitVal d0
      ≤ daysIn (digitVal m1 * 10 + digitVal m0) env.nowYear)
    (hH : digitVal h1 * 10 + digitVal h0 < 24) (hN : digitVal n1 * 10 + digitVal n0 < 60) :
    timeSeriesStart env f0
      = { year := env.nowYear, month := digitVal m1 * 10 + digitVal m0,
          day := digitVal d1 * 10 + digitVal d0,
          hour := digitVal h1 * 10 + digitVal h0,
          minute := digitVal n1 * 10 + digitVal n0, second := 0, nsec := 0 } := by
  have hparse := timeParse_compact d1 d0 m1 m0 h1 h0 n1 n0 hd1 hd0 hm1 hm0 hh1 hh0 hn1 hn0
    hM1 hM2 hD1 (Nat.le_trans hD2 (daysIn_le_yearZero _ _)) hH hN
  unfold timeSeriesStart
  rw [htrim, hparse]
  simp only [Option.getD_some, Time.AddDate]
  have := Date_inRange env.nowYear _ _ _ _ hM1 hM2 hD1 hD2 hH hN
  simpa using this

set_option maxRecDepth 100000 in
/-- The example of the specification: `231015:30` is day 23, month 10, 15:30 of the
current year. -/
theorem timeSeriesStart_example :
    timeSeriesStart sampleDeps " 231015:30 "
      = { year := 2023, month := 10, day := 23, hour := 15, minute := 30, second := 0,
          nsec := 0 } :=
  timeSeriesStart_compact sampleDeps " 231015:30 " '2' '3' '1' '0' '1' '5' '3' '0'
    (by decide) (by decide) (by decide) (by decide) (by decide) (by decide) (by decide)
    (by decide) (by decide) (by decide) (by decide) (by decide) (by decide) (by decide)
    (by decide)

set_option maxRecDepth 100000 in
/-- C7 at the failing input: in the non-leap year 2023 the timestamp `290212:00` is
accepted (day 29, month 2, read in the leap year 0) and the record gets TimeStart
1 March 2023 12:00, not 29 February. -/
theorem timeSeries_feb29_rolls_over :
    isLeap sampleDeps.nowYear = false ∧
    timeParse (TrimSpace "290212:00")
      = some { year := 0, month := 2, day := 29, hour := 12, minute := 0, second := 0,
               nsec := 0 } ∧
    (parseTimeSeries sampleDeps ["290212:00", "1", "2", "3", "4", "5", "6", "7", "8"]).map
        (fun p => (p.1.TimeStart, p.2))
      = some (some { year := 2023, month := 3, day := 1, hour := 12, minute := 0,
                     second := 0, nsec := 0 }, none) := by
  decide

/-! ## Sentinel lines (C8) -/

/-- C8: sentinel lines are transparent.  A line equal to `BEGINOUTPUT` or `ENDOUTPUT`
leaves the loop state as it is (no record, no error, same row index); so two inputs with
the same non-sentinel lines in the same order have the same result, and inserting or
deleting a sentinel line at any position changes nothing.  The test is the exact
comparison with the two literals: any other line advances the row index whenever the loop
gets past it, and `BEGINOUTPUT` followed by a blank is not a sentinel. -/
theorem sentinel_transparent (env : Deps F E) :
    (∀ (st : LoopState F E) line, isSentinel line = true → step env st line = some st) ∧
    (∀ lines lines2, dataRows lines = dataRows lines2 →
      StorageProvisionings env lines = StorageProvisionings env lines2) ∧
    (∀ a b s, isSentinel s = true →
      StorageProvisionings env (a ++ s :: b) = StorageProvisionings env (a ++ b)) ∧
    (∀ line, isSentinel line = true ↔ line = "BEGINOUTPUT" ∨ line = "ENDOUTPUT") ∧
    (∀ (st st1 : LoopState F E) line, isSentinel line = false →
      step env st line = some st1 → st1.i = st.i + 1) ∧
    isSentinel "BEGINOUTPUT " = false := by
  have hmain : ∀ lines lines2, dataRows lines = dataRows lines2 →
      StorageProvisionings env lines = StorageProvisionings env lines2 := by
    intro lines lines2 h
    unfold StorageProvisionings scan
    rw [scanFrom_dataRows env _ lines, scanFrom_dataRows env _ lines2, h]
  refine ⟨fun st line h => step_sentinel env st line h, hmain, ?_, isSentinel_iff, ?_, by decide⟩
  · intro a b s hs
    apply hmain
    rw [dataRows_append, dataRows_append]
    simp [dataRows, hs]
  · intro st st1 line hs hstep
    have := (step_effect env st st1 line hstep).1
    simpa [hs] using this

set_option maxRecDepth 100000 in
/-- Witness of C8: the sample input without its sentinel lines, and with sentinel lines
put between its rows, has the result of the sample input. -/
theorem sentinel_transparent_witness :
    StorageProvisionings sampleDeps sampleLines
        = StorageProvisionings sampleDeps (sampleSummaryRows ++ sampleTimeSeriesRows) ∧
      StorageProvisionings sampleDeps
          (sampleSummaryRows ++ "ENDOUTPUT" :: "BEGINOUTPUT" :: sampleTimeSeriesRows)
        = StorageProvisionings sampleDeps sampleLines :=
  ⟨(sentinel_transparent sampleDeps).2.1 _ _ (by decide),
    (sentinel_transparent sampleDeps).2.1 _ _ (by decide)⟩

/-! ## An 8-field row after the twelve slots (C9) -/

set_option maxRecDepth 100000 in
/-- C9 at the failing input: a thirteenth 8-field row.  Its row index is 12, the summary
block builds its record, and then the block `if i > 11` passes the same eight fields to
`parseTimeSeries`, which indexes element 8: the call panics and returns nothing. -/
theorem late_summary_row_panics :
    rowIndex sampleSummaryRows = 12 ∧
    (Split "1|||2|||3|||4|||5|||6|||7|||8").length = 8 ∧
    Contains (Split "1|||2|||3|||4|||5|||6|||7|||8") "N/A" = false ∧
    (summaryBlock sampleDeps { i := 12, res := [], merr := none }
        (Split "1|||2|||3|||4|||5|||6|||7|||8")).isSome = true ∧
    parseTimeSeries sampleDeps (Split "1|||2|||3|||4|||5|||6|||7|||8") = none ∧
    StorageProvisionings sampleDeps (sampleSummaryRows ++ ["1|||2|||3|||4|||5|||6|||7|||8"])
      = none := by
  decide

/-! ## The aggregated failure (C11) -/

theorem convErrs_length (env : Deps F E) (fields : List String) :
    (convErrs env fields).length = failedFields env fields := by
  induction fields with
  | nil => rfl
  | cons f fields ih =>
    simp only [convErrs, failedFields] at ih ⊢
    rw [List.filterMap_cons, List.countP_cons, ← ih]
    cases (env.TrimParseUnsafeFloat64 f).2 <;> simp

theorem stampErrs_length (env : Deps F E) (f0 : String) :
    (stampErrs env f0).length = if (timeParse (TrimSpace f0)).isSome then 0 else 1 := by
  unfold stampErrs
  cases timeParse (TrimSpace f0) <;> simp

theorem rowErrs_length (env : Deps F E) (i : Nat) (line : String) :
    (rowErrs env i line).length = rowFailures env i line := by
  unfold rowErrs rowFailures
  split
  · rfl
  · rw [List.length_append]
    congr 1
    · split
      · exact convErrs_length env _
      · rfl
    · split
      · rw [List.length_append, stampErrs_length, convErrs_length]
      · rfl

theorem errsFrom_length (env : Deps F E) (i : Nat) (lines : List String) :
    (errsFrom env i lines).length = failuresFrom env i lines := by
  induction lines generalizing i with
  | nil => rfl
  | cons l lines ih => rw [errsFrom, failuresFrom, List.length_append, rowErrs_length, ih]

/-- C11: on every input on which `StorageProvisionings` returns a failure, the composite
error holds, flattened into one list, the errors of the failed conversions of all
dispatched rows, in row order and within a row in field order (timestamp first for a
time-series row); their number is the total number of failed conversions (numeric fields
plus timestamps); no record is returned with it. -/
theorem failure_enumerates_all (env : Deps F E) (lines : List String) (out : Result F E)
    (es : List E) (hret : StorageProvisionings env lines = some out)
    (hfail : out.err = some es) :
    es = errsFrom env 0 lines ∧ es.length = failuresFrom env 0 lines ∧
      0 < es.length ∧ out.records = none := by
  obtain ⟨herr, hrec⟩ := storageProvisionings_err env lines out hret
  rw [hfail] at herr
  have hes : es = errsFrom env 0 lines ∧ es ≠ [] := by
    unfold ofErrList at herr
    cases hl : errsFrom env 0 lines with
    | nil => rw [hl] at herr; simp at herr
    | cons a l =>
      rw [hl] at herr
      simp only [List.isEmpty_cons, Bool.false_eq_true, if_false, Option.some.injEq] at herr
      exact ⟨herr, by rw [herr]; simp⟩
  refine ⟨hes.1, ?_, List.length_pos.2 hes.2, hrec (by simp [hfail])⟩
  rw [hes.1, errsFrom_length]

set_option maxRecDepth 100000 in
/-- Witness of C11: three conversions fail, in row 3 (field 2) and in the time-series row
(timestamp and field 2); the composite holds the three errors in that order. -/
theorem failure_enumerates_all_witness :
    (StorageProvisionings sampleDeps sampleBadLines
        = some { records := none,
                 err := some ["not a number: abc", "cannot parse time: xx",
                              "not a number: a"] }) ∧
      ["not a number: abc", "cannot parse time: xx", "not a number: a"]
        = errsFrom sampleDeps 0 sampleBadLines ∧
      ["not a number: abc", "cannot parse time: xx", "not a number: a"].length
        = failuresFrom sampleDeps 0 sampleBadLines ∧
      failuresFrom sampleDeps 0 sampleBadLines = 3 :=
  have hret : StorageProvisionings sampleDeps sampleBadLines
      = some { records := none,
               err := some ["not a number: abc", "cannot parse time: xx",
                            "not a number: a"] } := by decide
  have h := failure_enumerates_all sampleDeps sampleBadLines _
    ["not a number: abc", "cannot parse time: xx", "not a number: a"] hret rfl
  ⟨hret, h.1, h.2.1, by decide⟩

/-! ## Independent conversions within a row (C12) -/

theorem ofErrList_ne_none {es : List E} : ofErrList es ≠ none ↔ es ≠ [] := by
  rw [Ne, ofErrList_eq_none]

theorem convErrs_ne_nil_iff (env : Deps F E) (fields : List String) :
    convErrs env fields ≠ [] ↔ ∃ f ∈ fields, (env.TrimParseUnsafeFloat64 f).2 ≠ none := by
  constructor
  · intro h
    by_contra hno
    apply h
    apply convErrs_eq_nil
    intro f hf
    by_contra hne
    exact hno ⟨f, hf, hne⟩
  · exact convErrs_ne_nil env fields

theorem stampErrs_ne_nil_iff (env : Deps F E) (f0 : String) :
    stampErrs env f0 ≠ [] ↔ timeParse (TrimSpace f0) = none := by
  unfold stampErrs
  cases timeParse (TrimSpace f0) <;> simp

/-- C12: field conversions are independent within a row.  For every 8-element field list
`parseValues` returns the record in which every metric is the value the primitive returns
for its field, whatever failed before, together with an error that is non-nil exactly when
at least one conversion fails and that holds one entry per failing field, in field order.
The same holds for `parseTimeSeries` over the timestamp and the eight metrics: the entry of
a failing timestamp comes first, and a timestamp that parses sets TimeStart to its value in
the current year. -/
theorem conversions_independent (env : Deps F E) (f0 f1 f2 f3 f4 f5 f6 f7 f8 : String) :
    (∃ sp errs, parseValues env [f0, f1, f2, f3, f4, f5, f6, f7] = some (sp, errs) ∧
      (errs ≠ none ↔
        ∃ f ∈ [f0, f1, f2, f3, f4, f5, f6, f7], (env.TrimParseUnsafeFloat64 f).2 ≠ none) ∧
      errs = ofErrList ([f0, f1, f2, f3, f4, f5, f6, f7].filterMap
        (fun f => (env.TrimParseUnsafeFloat64 f).2.map env.NewError)) ∧
      (errs.getD []).length = failedFields env [f0, f1, f2, f3, f4, f5, f6, f7] ∧
      sp.CpuDbAvg = (env.TrimParseUnsafeFloat64 f0).1 ∧
      sp.CpuDbMax = (env.TrimParseUnsafeFloat64 f1).1 ∧
      sp.CpuHostAvg = (env.TrimParseUnsafeFloat64 f2).1 ∧
      sp.CpuHostMax = (env.TrimParseUnsafeFloat64 f3).1 ∧
      sp.IopsAvg = (env.TrimParseUnsafeFloat64 f4).1 ∧
      sp.IopsMax = (env.TrimParseUnsafeFloat64 f5).1 ∧
      sp.IombAvg = (env.TrimParseUnsafeFloat64 f6).1 ∧
      sp.IombMax = (env.TrimParseUnsafeFloat64 f7).1) ∧
    (∃ sp errs,
      parseTimeSeries env [f0, f1, f2, f3, f4, f5, f6, f7, f8] = some (sp, errs) ∧
      (errs ≠ none ↔ (timeParse (TrimSpace f0) = none ∨
        ∃ f ∈ [f1, f2, f3, f4, f5, f6, f7, f8], (env.TrimParseUnsafeFloat64 f).2 ≠ none)) ∧
      errs = ofErrList (stampErrs env f0 ++ [f1, f2, f3, f4, f5, f6, f7, f8].filterMap
        (fun f => (env.TrimParseUnsafeFloat64 f).2.map env.NewError)) ∧
      (errs.getD []).length = (if (timeParse (TrimSpace f0)).isSome then 0 else 1) +
        failedFields env [f1, f2, f3, f4, f5, f6, f7, f8] ∧
      (∀ t, timeParse (TrimSpace f0) = some t →
        sp.TimeStart = some (t.AddDate env.nowYear 0 0)) ∧
      sp.CpuDbAvg = (env.TrimParseUnsafeFloat64 f1).1 ∧
      sp.CpuDbMax = (env.TrimParseUnsafeFloat64 f2).1 ∧
      sp.CpuHostAvg = (env.TrimParseUnsafeFloat64 f3).1 ∧
      sp.CpuHostMax = (env.TrimParseUnsafeFloat64 f4).1 ∧
      sp.IopsAvg = (env.TrimParseUnsafeFloat64 f5).1 ∧
      sp.IopsMax = (env.TrimParseUnsafeFloat64 f6).1 ∧
      sp.IombAvg = (env.TrimParseUnsafeFloat64 f7).1 ∧
      sp.IombMax = (env.TrimParseUnsafeFloat64 f8).1) := by
  have hlen : ∀ l : List E, ((ofErrList l).getD []).length = l.length := by
    intro l
    cases l <;> simp [ofErrList]
  constructor
  · refine ⟨_, _, parseValues_eight env f0 f1 f2 f3 f4 f5 f6 f7 [], ?_, rfl, ?_,
      rfl, rfl, rfl, rfl, rfl, rfl, rfl, rfl⟩
    · rw [ofErrList_ne_none, convErrs_ne_nil_iff]
    · rw [hlen, convErrs_length]
  · refine ⟨_, _, parseTimeSeries_nine env f0 f1 f2 f3 f4 f5 f6 f7 f8 [], ?_, rfl, ?_, ?_,
      rfl, rfl, rfl, rfl, rfl, rfl, rfl, rfl⟩
    · rw [ofErrList_ne_none, ← stampErrs_ne_nil_iff env f0, ← convErrs_ne_nil_iff]
      rw [Ne, List.append_eq_nil, not_and_or]
    · rw [hlen, List.length_append, stampErrs_length, convErrs_length]
    · intro t ht
      simp [timeSeriesStart, ht]

/-! ## What the result depends on (C13) -/

/-- The summary variant does not read the clock. -/
theorem parseValues_clock (env : Deps F E) (y : Int) (l : List String) :
    parseValues { env with nowYear := y } l = parseValues env l := by
  simp only [parseValues, noteErr]

/-- Within the twelve summary slots an iteration does not read the clock. -/
theorem step_clock (env : Deps F E) (y : Int) (st : LoopState F E) (line : String)
    (hi : st.i ≤ 11) : step { env with nowYear := y } st line = step env st line := by
  cases hs : isSentinel line with
  | true => rw [step_sentinel _ st line hs, step_sentinel env st line hs]
  | false =>
    cases hna : Contains (Split line) "N/A" with
    | true => rw [step_na _ st line hna, step_na env st line hna]
    | false =>
      by_cases h8 : (Split line).length = 8
      · obtain ⟨sp, hsp, hstep⟩ := step_summary env st line h8 hna hi
        obtain ⟨sp2, hsp2, hstep2⟩ := step_summary { env with nowYear := y } st line h8 hna hi
        have hrec : summaryRecord { env with nowYear := y } st.i line
            = summaryRecord env st.i line := by
          simp only [summaryRecord, parseValues_clock]
        have herrs : convErrs { env with nowYear := y } (Split line)
            = convErrs env (Split line) := by
          simp only [convErrs]
        rw [hrec, hsp] at hsp2
        rw [hstep, hstep2, herrs, Option.some.inj hsp2]
      · rw [step_drop _ st line hs h8 hna hi, step_drop env st line hs h8 hna hi]

theorem scanFrom_clock (env : Deps F E) (y : Int) (st : LoopState F E) (lines : List String)
    (h : st.i + rowIndex lines ≤ 12) :
    scanFrom { env with nowYear := y } st lines = scanFrom env st lines := by
  induction lines generalizing st with
  | nil => rfl
  | cons l lines ih =>
    rw [scanFrom, scanFrom]
    cases hs : isSentinel l with
    | true =>
      rw [step_sentinel _ st l hs, step_sentinel env st l hs]
      apply ih
      simpa [rowIndex, dataRows, hs] using h
    | false =>
      have hlen : rowIndex (l :: lines) = rowIndex lines + 1 := by simp [rowIndex, dataRows, hs]
      rw [hlen] at h
      rw [step_clock env y st l (by omega)]
      cases hstep : step env st l with
      | none => rfl
      | some s =>
        have hi := (step_effect env st s l hstep).1
        simp only [hs, Bool.false_eq_true, if_false] at hi
        exact ih s (by omega)

set_option maxRecDepth 100000 in
/-- C13 as stated fails: with the same input, the same captured `currentTime` and the same
primitives, the call made when the clock shows 2024 returns other records than the call
made in 2023, because `parseTimeSeries` reads `time.Now().Year()`. -/
theorem result_depends_on_clock_year :
    sampleDepsNextYear.currentTime = sampleDeps.currentTime ∧
    sampleDepsNextYear.TrimParseUnsafeFloat64 = sampleDeps.TrimParseUnsafeFloat64 ∧
    sampleDepsNextYear.NewError = sampleDeps.NewError ∧
    sampleDepsNextYear.timeParseError = sampleDeps.timeParseError ∧
    StorageProvisionings sampleDepsNextYear sampleLines
      ≠ StorageProvisionings sampleDeps sampleLines :=
  ⟨rfl, rfl, rfl, rfl, by decide⟩

/-- C13, amended: the result is a function of the input lines, the captured instant
`currentTime` and the calendar year that the clock shows during the call, which
`parseTimeSeries` reads for each time-series row.  Two calls with the same input, the same
`currentTime` and the same primitives return identical results if the clock shows the same
year, or if the input has at most twelve rows (then the clock is not read at all). -/
theorem result_determined (env env2 : Deps F E) (lines : List String)
    (hconv : env2.TrimParseUnsafeFloat64 = env.TrimParseUnsafeFloat64)
    (hnew : env2.NewError = env.NewError)
    (hterr : env2.timeParseError = env.timeParseError)
    (hT : env2.currentTime = env.currentTime)
    (hclock : env2.nowYear = env.nowYear ∨ rowIndex lines ≤ 12) :
    StorageProvisionings env2 lines = StorageProvisionings env lines := by
  have henv : env2 = { env with nowYear := env2.nowYear } := by
    cases env
    cases env2
    simp only at hconv hnew hterr hT
    subst hconv hnew hterr hT
    rfl
  rcases hclock with hy | hrows
  · rw [henv, hy]
  · rw [henv]
    unfold StorageProvisionings scan
    rw [scanFrom_clock env env2.nowYear LoopState.init lines
      (by simpa [LoopState.init] using hrows)]

set_option maxRecDepth 100000 in
/-- Witness of the amended C13: on the twelve summary rows the calls of 2023 and of 2024
return the same result. -/
theorem result_determined_witness :
    (sampleDepsNextYear.nowYear = sampleDeps.nowYear ∨ rowIndex sampleSummaryRows ≤ 12) ∧
    StorageProvisionings sampleDepsNextYear sampleSummaryRows
      = StorageProvisionings sampleDeps sampleSummaryRows :=
  ⟨Or.inr (by decide),
    result_determined sampleDeps sampleDepsNextYear sampleSummaryRows rfl rfl rfl rfl
      (Or.inr (by decide))⟩

/-! ## Index safety (C15) -/

theorem rowIndex_cons (l : String) (ls : List String) :
    rowIndex (l :: ls) = (if isSentinel l then 0 else 1) + rowIndex ls := by
  cases hs : isSentinel l <;> simp [rowIndex, dataRows, hs, Nat.add_comm]

/-- A property of all rows with their indices, said position by position. -/
theorem allRows_iff (P : Nat → String → Prop) (i : Nat) (lines : List String) :
    allRows P i lines ↔
      ∀ pre row post, lines = pre ++ row :: post → P (i + rowIndex pre) row := by
  induction lines generalizing i with
  | nil =>
    simp only [allRows, true_iff]
    intro pre row post h
    cases pre <;> cases h
  | cons l ls ih =>
    rw [allRows, ih]
    constructor
    · rintro ⟨h0, hrest⟩ pre row post hsplit
      cases pre with
      | nil =>
        simp only [List.nil_append, List.cons.injEq] at hsplit
        obtain ⟨rfl, _⟩ := hsplit
        simpa [rowIndex, dataRows] using h0
      | cons a pre =>
        simp only [List.cons_append, List.cons.injEq] at hsplit
        obtain ⟨rfl, hls⟩ := hsplit
        have := hrest pre row post hls
        rw [rowIndex_cons, ← Nat.add_assoc]
        exact this
    · intro h
      refine ⟨?_, ?_⟩
      · have := h [] l ls rfl
        simpa [rowIndex, dataRows] using this
      · intro pre row post hsplit
        have := h (l :: pre) row post (by rw [hsplit]; rfl)
        rw [rowIndex_cons, ← Nat.add_assoc] at this
        exact this

/-- An iteration panics exactly on a row passed to `parseTimeSeries` with fewer than nine
fields. -/
theorem step_isSome_iff (env : Deps F E) (st : LoopState F E) (line : String) :
    (step env st line).isSome = true ↔ ¬ lateShort st.i line := by
  unfold lateShort
  cases hs : isSentinel line with
  | true => simp [step_sentinel env st line hs]
  | false =>
    cases hna : Contains (Split line) "N/A" with
    | true => simp [step_na env st line hna]
    | false =>
      by_cases hi : st.i ≤ 11
      · have hi2 : ¬ 11 < st.i := by omega
        by_cases h8 : (Split line).length = 8
        · obtain ⟨sp, _, hstep⟩ := step_summary env st line h8 hna hi
          simp [hstep, hi2]
        · simp [step_drop env st line hs h8 hna hi, hi2]
      · have hi2 : 11 < st.i := by omega
        by_cases h9 : 9 ≤ (Split line).length
        · obtain ⟨sp, _, hstep⟩ := step_timeSeries env st line h9 hna hi2
          simp [hstep]
          omega
        · simp [step_short_late env st line hs (by omega) hna hi2, hi2]
          omega

theorem scanFrom_isSome_iff (env : Deps F E) (st : LoopState F E) (lines : List String) :
    (scanFrom env st lines).isSome = true ↔ allRows (fun i l => ¬ lateShort i l) st.i lines := by
  induction lines generalizing st with
  | nil => simp [scanFrom, allRows]
  | cons l ls ih =>
    rw [scanFrom, allRows, ← step_isSome_iff env st l]
    cases hstep : step env st l with
    | none => simp
    | some s =>
      have hi := (step_effect env st s l hstep).1
      simp only [Option.isSome_some, true_and]
      rw [ih s, hi]

/-- C15: `StorageProvisionings` performs no out-of-range field access (it returns) on every
input in which each non-sentinel row without an `N/A` field at a row index above 11 has at
least nine fields; conversely, if some such row at an index above 11 has fewer than nine
fields (an empty line, or an 8-field row after twelve rows), `parseTimeSeries` indexes past
the end of its field list, the iteration that reaches the row panics, and the call does not
return. -/
theorem index_safety (env : Deps F E) (lines : List String) :
    ((∀ pre row post, lines = pre ++ row :: post → isSentinel row = false →
        Contains (Split row) "N/A" = false → 11 < rowIndex pre → 9 ≤ (Split row).length) →
      ∃ out, StorageProvisionings env lines = some out) ∧
    (∀ pre row post, lines = pre ++ row :: post → isSentinel row = false →
        Contains (Split row) "N/A" = false → 11 < rowIndex pre → (Split row).length < 9 →
      parseTimeSeries env (Split row) = none ∧
      (∀ st, scan env pre = some st → step env st row = none) ∧
      StorageProvisionings env lines = none) := by
  have hiff := scanFrom_isSome_iff env LoopState.init lines
  rw [allRows_iff] at hiff
  constructor
  · intro hsafe
    have hsome : (scanFrom env LoopState.init lines).isSome = true := by
      rw [hiff]
      intro pre row post hsplit hlate
      obtain ⟨hs, hna, hi, hlen⟩ := hlate
      simp only [LoopState.init, Nat.zero_add] at hi
      have := hsafe pre row post hsplit hs hna hi
      omega
    obtain ⟨st, hst⟩ := Option.isSome_iff_exists.1 hsome
    exact ⟨finish st, by simp [StorageProvisionings, scan, hst]⟩
  · intro pre row post hsplit hs hna hi hlen
    refine ⟨parseTimeSeries_short env _ hlen, ?_, ?_⟩
    · intro st hst
      have hsti := scan_index env pre st hst
      exact step_short_late env st row hs hlen hna (by omega)
    · have hnot : ¬ (scanFrom env LoopState.init lines).isSome = true := by
        rw [hiff]
        intro hall
        exact hall pre row post hsplit
          ⟨hs, hna, by simpa [LoopState.init] using hi, hlen⟩
      cases hscan : scanFrom env LoopState.init lines with
      | none => simp [StorageProvisionings, scan, hscan]
      | some st => rw [hscan] at hnot; simp at hnot

set_option maxRecDepth 100000 in
/-- Witness of C15: an empty line after the twelve sample rows stands at row index 12 with
one field; the call does not return. -/
theorem index_safety_witness :
    (sampleSummaryRows ++ [""] = sampleSummaryRows ++ "" :: [] ∧ isSentinel "" = false ∧
      Contains (Split "") "N/A" = false ∧ 11 < rowIndex sampleSummaryRows ∧
      (Split "").length < 9) ∧
    parseTimeSeries sampleDeps (Split "") = none ∧
    StorageProvisionings sampleDeps (sampleSummaryRows ++ [""]) = none :=
  have h := (index_safety sampleDeps (sampleSummaryRows ++ [""])).2 sampleSummaryRows "" []
    rfl (by decide) (by decide) (by decide) (by decide)
  ⟨⟨rfl, by decide, by decide, by decide, by decide⟩, h.1, h.2.2⟩

/-! ## The shape of the returned records (C14) -/

theorem switchWindow_start (T : Time) (i : Nat) (h : i ≤ 11) :
    (switchWindow T i).1.isSome = true := by
  interval_cases i <;> rfl

theorem timeSeriesRecord_shape (env : Deps F E) (row : String) (sp : StorageProvisioning F)
    (h : timeSeriesRecord env row = some sp) :
    sp.TimeStart.isSome = true ∧ sp.TimeEnd = none := by
  unfold timeSeriesRecord at h
  by_cases hlen : (Split row).length < 9
  · rw [parseTimeSeries_short env _ hlen] at h
    cases h
  · match hl : Split row, hlen with
    | f0 :: f1 :: f2 :: f3 :: f4 :: f5 :: f6 :: f7 :: f8 :: rest, _ =>
      rw [hl, parseTimeSeries_nine] at h
      simp only [Option.map_some', Option.some.injEq] at h
      subst h
      exact ⟨rfl, rfl⟩
    | [], h0 => simp at h0
    | [_], h0 => simp at h0
    | [_, _], h0 => simp at h0
    | [_, _, _], h0 => simp at h0
    | [_, _, _, _], h0 => simp at h0
    | [_, _, _, _, _], h0 => simp at h0
    | [_, _, _, _, _, _], h0 => simp at h0
    | [_, _, _, _, _, _, _], h0 => simp at h0
    | [_, _, _, _, _, _, _, _], h0 => simp at h0

/-- The records that one iteration appends: the record of the line if it is dispatched,
with the window shape of its variant, and nothing otherwise. -/
theorem step_shape (env : Deps F E) (st st1 : LoopState F E) (line : String)
    (h : step env st line = some st1) :
    ∃ more, st1.res = st.res ++ more ∧
      List.Forall₂ (shapeOK env) (if isDispatched st.i line then [(st.i, line)] else [])
        more := by
  cases hs : isSentinel line with
  | true =>
    rw [step_sentinel env st line hs] at h
    cases h
    exact ⟨[], by simp, by simp [isDispatched, hs]⟩
  | false =>
    cases hna : Contains (Split line) "N/A" with
    | true =>
      rw [step_na env st line hna] at h
      cases h
      exact ⟨[], by simp, by simp [isDispatched, hna]⟩
    | false =>
      by_cases hi : st.i ≤ 11
      · have hi2 : ¬ 11 < st.i := by omega
        by_cases h8 : (Split line).length = 8
        · obtain ⟨sp, hsp, hstep⟩ := step_summary env st line h8 hna hi
          rw [hstep] at h
          cases h
          refine ⟨[sp], rfl, ?_⟩
          have hd : isDispatched st.i line = true := by simp [isDispatched, hs, hna, h8]
          rw [hd]
          simp only [if_true, List.forall₂_cons, List.Forall₂.nil, and_true]
          refine ⟨by simp [rowRecord, h8, hsp], ?_, fun hne => absurd h8 hne⟩
          have hw := summaryRecord_window env st.i line sp hsp
          have hst := switchWindow_start env.currentTime st.i hi
          rw [← hw] at hst
          exact hst
        · rw [step_drop env st line hs h8 hna hi] at h
          cases h
          exact ⟨[], by simp, by simp [isDispatched, h8, hi2]⟩
      · have hi2 : 11 < st.i := by omega
        by_cases h9 : 9 ≤ (Split line).length
        · obtain ⟨sp, hsp, hstep⟩ := step_timeSeries env st line h9 hna hi2
          have h8 : (Split line).length ≠ 8 := by omega
          rw [hstep] at h
          cases h
          refine ⟨[sp], rfl, ?_⟩
          have hd : isDispatched st.i line = true := by simp [isDispatched, hs, hna, hi2]
          rw [hd]
          simp only [if_true, List.forall₂_cons, List.Forall₂.nil, and_true]
          obtain ⟨h1, h2⟩ := timeSeriesRecord_shape env line sp hsp
          exact ⟨by simp [rowRecord, h8, hsp], h1, fun _ => h2⟩
        · rw [step_short_late env st line hs (by omega) hna hi2] at h
          cases h

/-- The records of a run are those of its dispatched rows, one each, in input order. -/
theorem scanFrom_shape (env : Deps F E) (st st1 : LoopState F E) (lines : List String)
    (h : scanFrom env st lines = some st1) :
    ∃ more, st1.res = st.res ++ more ∧
      List.Forall₂ (shapeOK env) (dispatchedRows st.i lines) more := by
  induction lines generalizing st with
  | nil =>
    simp only [scanFrom, Option.some.injEq] at h
    subst h
    exact ⟨[], by simp, by simp [dispatchedRows]⟩
  | cons l ls ih =>
    rw [scanFrom] at h
    cases hstep : step env st l with
    | none => rw [hstep] at h; cases h
    | some s =>
      rw [hstep] at h
      obtain ⟨m1, hm1, hf1⟩ := step_shape env st s l hstep
      obtain ⟨m2, hm2, hf2⟩ := ih s h
      have hi := (step_effect env st s l hstep).1
      refine ⟨m1 ++ m2, by rw [hm2, hm1, List.append_assoc], ?_⟩
      rw [dispatchedRows]
      rw [hi] at hf2
      exact List.rel_append hf1 hf2

theorem forall2_right_mem {α β : Type} {R : α → β → Prop} {l1 : List α} {l2 : List β}
    (h : List.Forall₂ R l1 l2) : ∀ b ∈ l2, ∃ a ∈ l1, R a b := by
  induction h with
  | nil => intro b hb; cases hb
  | cons hab _ ih =>
    intro b hb
    rcases List.mem_cons.1 hb with rfl | hb
    · exact ⟨_, List.mem_cons_self _ _, hab⟩
    · obtain ⟨a, ha, hr⟩ := ih b hb
      exact ⟨a, List.mem_cons_of_mem _ ha, hr⟩

theorem storageProvisionings_scan (env : Deps F E) (lines : List String) (out : Result F E)
    (hret : StorageProvisionings env lines = some out) :
    ∃ st, scan env lines = some st ∧ out = finish st := by
  unfold StorageProvisionings at hret
  cases hscan : scan env lines with
  | none => rw [hscan] at hret; cases hret
  | some st =>
    rw [hscan] at hret
    simp only [Option.map_some', Option.some.injEq] at hret
    exact ⟨st, rfl, hret.symm⟩

/-- On success the records returned are those of the loop. -/
theorem storageProvisionings_records (env : Deps F E) (lines : List String)
    (out : Result F E) (hret : StorageProvisionings env lines = some out)
    (hok : out.err = none) :
    ∃ recs, out.records = some recs ∧
      List.Forall₂ (shapeOK env) (dispatchedRows 0 lines) recs := by
  obtain ⟨st, hscan, hout⟩ := storageProvisionings_scan env lines out hret
  obtain ⟨more, hmore, hshape⟩ := scanFrom_shape env LoopState.init st lines hscan
  simp only [LoopState.init, List.nil_append] at hmore hshape
  subst hout
  unfold finish at hok ⊢
  cases hm : st.merr with
  | some es => rw [hm] at hok; cases hok
  | none => exact ⟨more, by simp [hmore], hshape⟩

/-- C14: window-shape invariant of the output.  In every record list returned successfully
the records are those of the dispatched rows, one each and in order; every record built
from an 8-field summary row has TimeStart present, every record built from a time-series
row has TimeStart present and TimeEnd absent, and no returned record has TimeStart
absent. -/
theorem window_shape (env : Deps F E) (lines : List String)
    (recs : List (StorageProvisioning F))
    (hret : StorageProvisionings env lines = some { records := some recs, err := none }) :
    List.Forall₂ (fun p r => rowRecord env p.1 p.2 = some r ∧
        ((Split p.2).length = 8 → r.TimeStart.isSome = true) ∧
        ((Split p.2).length ≠ 8 → r.TimeStart.isSome = true ∧ r.TimeEnd = none))
      (dispatchedRows 0 lines) recs ∧
    ∀ r ∈ recs, r.TimeStart.isSome = true := by
  obtain ⟨recs2, hrecs, hshape⟩ := storageProvisionings_records env lines _ hret rfl
  simp only [Option.some.injEq] at hrecs
  subst hrecs
  constructor
  · refine hshape.imp ?_
    intro p r hp
    exact ⟨hp.1, fun _ => hp.2.1, fun hne => ⟨hp.2.1, hp.2.2 hne⟩⟩
  · intro r hr
    obtain ⟨p, _, hp⟩ := forall2_right_mem hshape r hr
    exact hp.2.1


set_option maxRecDepth 100000 in
/-- Witness of C14: the fourteen records returned on the sample input. -/
theorem window_shape_witness :
    StorageProvisionings sampleDeps sampleLines
        = some { records := some sampleRecords, err := none } ∧
      sampleRecords.length = 14 ∧
      ∀ r ∈ sampleRecords, r.TimeStart.isSome = true :=
  have hret : StorageProvisionings sampleDeps sampleLines
      = some { records := some sampleRecords, err := none } := by decide
  ⟨hret, by decide, (window_shape sampleDeps sampleLines sampleRecords hret).2⟩

/-! ## Success and the dispatched rows (C16) -/

theorem rowErrs_eq_nil_iff (env : Deps F E) (i : Nat) (row : String) :
    rowErrs env i row = [] ↔
      (isSentinel row = false → Contains (Split row) "N/A" = false →
        ¬ conversionFails env i row) := by
  constructor
  · intro hnil hs hna hfail
    exact rowErrs_ne_nil env i row hs hna hfail hnil
  · intro h
    by_contra hne
    cases hs : isSentinel row with
    | true => exact hne (by simp [rowErrs, hs])
    | false =>
      cases hna : Contains (Split row) "N/A" with
      | true => exact hne (by simp [rowErrs, hna])
      | false =>
        apply h hs hna
        simp only [rowErrs, hs, hna, Bool.false_eq_true, or_self, if_false] at hne
        rw [List.append_eq_nil, not_and_or] at hne
        rcases hne with h1 | h2
        · left
          by_cases h8 : (Split row).length = 8
          · rw [if_pos h8] at h1
            exact ⟨h8, (convErrs_ne_nil_iff env _).1 h1⟩
          · rw [if_neg h8] at h1
            exact absurd rfl h1
        · right
          by_cases hi : 11 < i
          · rw [if_pos hi, List.append_eq_nil, not_and_or] at h2
            refine ⟨hi, ?_⟩
            rcases h2 with h2 | h2
            · exact Or.inl ((stampErrs_ne_nil_iff env _).1 h2)
            · exact Or.inr ((convErrs_ne_nil_iff env _).1 h2)
          · rw [if_neg hi] at h2
            exact absurd rfl h2

theorem errsFrom_eq_nil_iff (env : Deps F E) (i : Nat) (lines : List String) :
    errsFrom env i lines = [] ↔ allRows (fun j l => rowErrs env j l = []) i lines := by
  induction lines generalizing i with
  | nil => simp [errsFrom, allRows]
  | cons l ls ih => rw [errsFrom, allRows, List.append_eq_nil, ih]

/-- C16: errors come only from dispatched rows.  On every input on which the call returns,
it succeeds (nil error and a non-nil record list) if and only if no conversion attempted on
a dispatched row (an 8-field row, or a row at an index above 11) fails; on success the
number of records is the number of dispatched rows; and a sentinel line, a row with an
`N/A` field and a row dropped within the first twelve slots leave the error and the
records of the loop as they are. -/
theorem success_iff_conversions (env : Deps F E) (lines : List String) (out : Result F E)
    (hret : StorageProvisionings env lines = some out) :
    ((out.err = none ∧ ∃ recs, out.records = some recs) ↔
      ∀ pre row post, lines = pre ++ row :: post → isSentinel row = false →
        Contains (Split row) "N/A" = false → ¬ conversionFails env (rowIndex pre) row) ∧
    (out.err = none →
      ∃ recs, out.records = some recs ∧ recs.length = (dispatchedRows 0 lines).length) ∧
    (∀ (st : LoopState F E) line,
      (isSentinel line = true ∨ Contains (Split line) "N/A" = true ∨
        (isSentinel line = false ∧ (Split line).length ≠ 8 ∧ st.i ≤ 11)) →
      ∃ st1, step env st line = some st1 ∧ st1.merr = st.merr ∧ st1.res = st.res) := by
  obtain ⟨herr, _⟩ := storageProvisionings_err env lines out hret
  have hiff : out.err = none ↔
      ∀ pre row post, lines = pre ++ row :: post → isSentinel row = false →
        Contains (Split row) "N/A" = false → ¬ conversionFails env (rowIndex pre) row := by
    rw [herr, ofErrList_eq_none, errsFrom_eq_nil_iff, allRows_iff]
    constructor
    · intro h pre row post hsplit
      have := h pre row post hsplit
      rw [Nat.zero_add] at this
      exact (rowErrs_eq_nil_iff env _ row).1 this
    · intro h pre row post hsplit
      rw [Nat.zero_add]
      exact (rowErrs_eq_nil_iff env _ row).2 (h pre row post hsplit)
  refine ⟨?_, ?_, ?_⟩
  · constructor
    · intro h
      exact hiff.1 h.1
    · intro h
      have hok := hiff.2 h
      obtain ⟨recs, hrecs, _⟩ := storageProvisionings_records env lines out hret hok
      exact ⟨hok, recs, hrecs⟩
  · intro hok
    obtain ⟨recs, hrecs, hshape⟩ := storageProvisionings_records env lines out hret hok
    exact ⟨recs, hrecs, hshape.length_eq.symm⟩
  · intro st line h
    rcases h with hs | hna | ⟨hs, h8, hi⟩
    · exact ⟨st, step_sentinel env st line hs, rfl, rfl⟩
    · exact ⟨_, step_na env st line hna, rfl, rfl⟩
    · cases hna : Contains (Split line) "N/A" with
      | true => exact ⟨_, step_na env st line hna, rfl, rfl⟩
      | false => exact ⟨_, step_drop env st line hs h8 hna hi, rfl, rfl⟩

set_option maxRecDepth 100000 in
/-- Witness of C16: an input with an `N/A` row, a row of text and an empty line among two
8-field rows succeeds with two records, the number of its dispatched rows. -/
theorem success_iff_conversions_witness :
    (∃ out, StorageProvisionings sampleDeps sampleMixedLines = some out ∧ out.err = none ∧
      ∃ recs, out.records = some recs ∧ recs.length = 2) ∧
    (dispatchedRows 0 sampleMixedLines).length = 2 :=
  have hdisp : (dispatchedRows 0 sampleMixedLines).length = 2 := by decide
  have hsome : (StorageProvisionings sampleDeps sampleMixedLines).isSome = true := by decide
  have hok : ∀ out, StorageProvisionings sampleDeps sampleMixedLines = some out →
      out.err = none := by
    intro out hout
    have h : (StorageProvisionings sampleDeps sampleMixedLines).bind (fun r => r.err)
        = none := by decide
    rw [hout] at h
    exact h
  match hout : StorageProvisionings sampleDeps sampleMixedLines, hsome with
  | some out, _ =>
    have h := (success_iff_conversions sampleDeps sampleMixedLines out hout).2.1
      (hok out hout)
    ⟨⟨out, rfl, hok out hout, by rw [← hdisp]; exact h⟩, hdisp⟩

/-! ## The round trip of a batch of more than twelve rows (C5) -/

/-- The rows of a serialised batch between the two sentinel lines. -/
theorem dataRows_batch (env : Deps F E) (rows : List (List String))
    (hgood : ∀ fs ∈ rows, goodFields env fs) :
    dataRows ("BEGINOUTPUT" :: rows.map Join ++ ["ENDOUTPUT"]) = rows.map Join := by
  have h1 : dataRows (rows.map Join) = rows.map Join := by
    simp only [dataRows, List.filter_eq_self]
    intro r hr
    obtain ⟨fs, hfs, rfl⟩ := List.mem_map.1 hr
    have h8 := (goodFields_row env fs (hgood fs hfs)).2.1
    have := not_sentinel_of_length (Join fs) (by rw [h8]; decide)
    simp [this]
  have h2 : "BEGINOUTPUT" :: rows.map Join ++ ["ENDOUTPUT"]
      = ["BEGINOUTPUT"] ++ (rows.map Join ++ ["ENDOUTPUT"]) := rfl
  have h3 : dataRows ["BEGINOUTPUT"] = [] := by decide
  have h4 : dataRows ["ENDOUTPUT"] = [] := by decide
  rw [h2, dataRows_append, dataRows_append, h1, h3, h4]
  simp

/-- A serialised batch of more than twelve 8-field rows does not parse back: the thirteenth
row stands at row index 12, both blocks of the loop body run on it, and `parseTimeSeries`
indexes element 8 of its eight fields. -/
theorem batch_over_twelve_panics (env : Deps F E) (rows : List (List String))
    (hlen : 12 < rows.length) (hgood : ∀ fs ∈ rows, goodFields env fs) :
    StorageProvisionings env ("BEGINOUTPUT" :: rows.map Join ++ ["ENDOUTPUT"]) = none := by
  have hsplit : rows = rows.take 12 ++ rows.drop 12 := (List.take_append_drop 12 rows).symm
  have htake : (rows.take 12).length = 12 := by
    rw [List.length_take]
    omega
  match hdrop : rows.drop 12 with
  | [] =>
    have := congrArg List.length hdrop
    simp only [List.length_drop, List.length_nil] at this
    omega
  | fs :: rest =>
    have hfs : fs ∈ rows := List.mem_of_mem_drop (by rw [hdrop]; exact List.mem_cons_self _ _)
    obtain ⟨_, h8, hna, _⟩ := goodFields_row env fs (hgood fs hfs)
    have hearly : ∀ r ∈ (rows.take 12).map Join, goodSummaryRow env r := by
      intro r hr
      obtain ⟨gs, hgs, rfl⟩ := List.mem_map.1 hr
      exact (goodFields_row env gs (hgood gs (List.mem_of_mem_take hgs))).2
    obtain ⟨recs, hscan, _⟩ := scanFrom_summaryRows env ((rows.take 12).map Join)
      LoopState.init (by simp [LoopState.init, htake]) hearly
    unfold StorageProvisionings scan
    rw [scanFrom_dataRows, dataRows_batch env rows hgood, hsplit, hdrop, List.map_append,
      scanFrom_append, hscan, Option.some_bind, List.map_cons, scanFrom,
      step_eight_late env _ (Join fs) h8 hna
        (by simp only [LoopState.init, List.length_map, htake]; omega)]
    rfl

set_option maxRecDepth 100000 in
/-- C5 at the failing input: thirteen rows of eight numeric fields, serialised with `|||`
between the sentinel lines.  Every row is a good 8-field row, and the first twelve rows
alone parse back to twelve records; with the thirteenth row the call panics and returns no
record at all, instead of the thirteen records that carry the converted values. -/
theorem roundTrip_thirteen_rows_panics :
    sampleThirteenFieldRows.length = 13 ∧
    (∀ fs ∈ sampleThirteenFieldRows, goodFields sampleDeps fs) ∧
    ((StorageProvisionings sampleDeps
        ("BEGINOUTPUT" :: (sampleThirteenFieldRows.take 12).map Join ++ ["ENDOUTPUT"])).bind
      (fun r => r.records)).map List.length = some 12 ∧
    StorageProvisionings sampleDeps
      ("BEGINOUTPUT" :: sampleThirteenFieldRows.map Join ++ ["ENDOUTPUT"]) = none :=
  ⟨by decide, by decide, by decide,
    batch_over_twelve_panics sampleDeps sampleThirteenFieldRows (by decide) (by decide)⟩

end StorageProv
